import Mathlib

/-!
# auth-service: refresh-token and confirmation-code stores, and the service on top of them

A shallow embedding of `internal/models/tokens.go`, `internal/apis/store/store.go` and
`internal/apis/service/service.go`.

Modelling conventions.

* Go `string` values are Lean `String`s (Unicode text).  The strings reaching the store come
  from protobuf string fields, which are valid UTF-8.
* `int64` (and `int`, on a 64-bit platform) is the subtype `I64` of `Int`.
* `time.Duration` is an `Int` number of nanoseconds.
* The Redis client is a list of entries.  Every command takes the failure injected by the
  backend for that command (`none`: the command is carried out); a failed command leaves the
  data untouched.  Expiry is not driven by a clock: an entry records the expiration it was
  written with, and the lapse of a TTL is the removal of the entry by the backend.
* `encoding/json` is embedded for the two record types: the encoder emits what `json.Marshal`
  emits, the decoder is a JSON parser followed by Go's struct-filling rules.
* The collaborators of the service (identity provider, token issuer, publisher) are given by
  the outcome of each of their calls in a `Deps` record; the calls made are returned as a trace.
-/

namespace AuthService

/-! ## Machine integers -/

/-- The least `int64`. -/
def minInt64 : Int := -9223372036854775808

/-- The greatest `int64`. -/
def maxInt64 : Int := 9223372036854775807

/-- Go `int64`: an integer in the signed 64-bit range. -/
abbrev I64 := { i : Int // minInt64 ≤ i ∧ i ≤ maxInt64 }

/-- Conversion of an integer to `int64` (two's complement wrap-around). -/
def I64.wrap (i : Int) : I64 :=
  ⟨(i + 9223372036854775808) % 18446744073709551616 - 9223372036854775808, by
    unfold minInt64 maxInt64
    constructor <;> omega⟩

instance (n : Nat) : OfNat I64 n := ⟨I64.wrap n⟩

/-! ## models/tokens.go -/

/-- Go `models.RefreshToken`. -/
structure RefreshToken where
  UserID : I64
  Role : String
  deriving DecidableEq

/-- Go `models.ConfirmCode`. -/
structure ConfirmCode where
  UserID : I64
  Name : String
  Code : I64
  deriving DecidableEq

/-! ## Errors -/

/-- Go `error` values built by the store and the service.
`nil` is the nil error (the source hands one to `BadRequestHidden`), `text` is an error known
by its message (`fmt.Errorf` without a wrapped cause, or an error handed over by a library),
`wrapf pre cause` is `fmt.Errorf(pre + "%w", cause)`, and the other constructors are the
`apperrors` constructors the source calls. -/
inductive GoError where
  | nil
  | text (msg : String)
  | wrapf (pre : String) (cause : GoError)
  | Internal (cause : GoError)
  | InternalWithoutStackTrace (cause : GoError)
  | BadRequestHidden (cause : GoError) (message : String)
  deriving DecidableEq

/-- The kind of an error: which `apperrors` constructor built it, if any. -/
inductive ErrKind where
  | plain
  | internal
  | internalWithoutStackTrace
  | badRequestHidden
  deriving DecidableEq

/-- Kind of an error value. -/
def GoError.kind : GoError → ErrKind
  | .nil => .plain
  | .text _ => .plain
  | .wrapf _ _ => .plain
  | .Internal _ => .internal
  | .InternalWithoutStackTrace _ => .internalWithoutStackTrace
  | .BadRequestHidden _ _ => .badRequestHidden

/-- Go `err.Error()` as far as the source determines it: the message of a plain error, with
the prefix of each `%w` wrapping; an `apperrors` value shows the message of its cause, and a
hidden bad request its fixed client-facing message. -/
def GoError.message : GoError → String
  | .nil => ""
  | .text m => m
  | .wrapf pre c => pre ++ c.message
  | .Internal c => c.message
  | .InternalWithoutStackTrace c => c.message
  | .BadRequestHidden _ m => m

/-! ## encoding/json: encoder -/

/-- Lower-case hexadecimal digit of a number below 16. -/
def hexDigit (n : Nat) : Char :=
  if n < 10 then Char.ofNat (48 + n) else Char.ofNat (87 + n)

/-- The escape `\u00XY` of a code point below 256. -/
def escapeU00 (c : Char) : List Char :=
  ['\\', 'u', '0', '0', hexDigit (c.toNat / 16), hexDigit (c.toNat % 16)]

/-- How `json.Marshal` writes one character of a string (HTML escaping on, as by default). -/
def encodeChar (c : Char) : List Char :=
  if c = '"' then ['\\', '"']
  else if c = '\\' then ['\\', '\\']
  else if c = '\n' then ['\\', 'n']
  else if c = '\r' then ['\\', 'r']
  else if c = '\t' then ['\\', 't']
  else if c.toNat = 8 then ['\\', 'b']
  else if c.toNat = 12 then ['\\', 'f']
  else if c.toNat < 32 then escapeU00 c
  else if c = '<' ∨ c = '>' ∨ c = '&' then escapeU00 c
  else if c.toNat = 0x2028 then ['\\', 'u', '2', '0', '2', '8']
  else if c.toNat = 0x2029 then ['\\', 'u', '2', '0', '2', '9']
  else [c]

/-- The characters of a string between the quotes of its JSON form. -/
def encodeChars : List Char → List Char
  | [] => []
  | c :: cs => encodeChar c ++ encodeChars cs

/-- JSON form of a string. -/
def encodeString (s : String) : List Char :=
  '"' :: (encodeChars s.data ++ ['"'])

/-- Decimal digit of a number below 10. -/
def digitChar (n : Nat) : Char := Char.ofNat (48 + n)

/-- Decimal digits of `n`, most significant first, in front of `acc`. -/
def formatNatAux : Nat → Nat → List Char → List Char
  | 0, _, acc => acc
  | fuel + 1, n, acc =>
    if n < 10 then digitChar n :: acc
    else formatNatAux fuel (n / 10) (digitChar (n % 10) :: acc)

/-- Decimal form of a natural number. -/
def formatNat (n : Nat) : List Char := formatNatAux (n + 1) n []

/-- Decimal form of an integer (`strconv.FormatInt(i, 10)`). -/
def formatInt (i : Int) : List Char :=
  if i < 0 then '-' :: formatNat i.natAbs else formatNat i.natAbs

/-- The bytes `json.Marshal` produces for a `models.RefreshToken`. -/
def marshalRefreshToken (t : RefreshToken) : String :=
  String.mk ('{' :: "\"user_id\":".data ++ formatInt t.UserID.val ++ ",\"role\":".data
    ++ encodeString t.Role ++ ['}'])

/-- The bytes `json.Marshal` produces for a `models.ConfirmCode`. -/
def marshalConfirmCode (c : ConfirmCode) : String :=
  String.mk ('{' :: "\"user_id\":".data ++ formatInt c.UserID.val ++ ",\"name\":".data
    ++ encodeString c.Name ++ ",\"code\":".data ++ formatInt c.Code.val ++ ['}'])

/-! ## encoding/json: decoder -/

/-- A parsed JSON value.  A number keeps its sign, the digits of its integer part, and whether
it is written without fraction and exponent. -/
inductive JVal where
  | null
  | bool (b : Bool)
  | num (neg : Bool) (digits : List Char) (integral : Bool)
  | str (s : String)
  | arr (items : List JVal)
  | obj (members : List (String × JVal))

/-- JSON white space. -/
def isSpace (c : Char) : Bool :=
  c.toNat = 32 || c.toNat = 9 || c.toNat = 13 || c.toNat = 10

/-- Drop leading white space. -/
def skipSpace : List Char → List Char
  | [] => []
  | c :: cs => if isSpace c then skipSpace cs else c :: cs

/-- Decimal digit test. -/
def isDigit (c : Char) : Bool := 48 ≤ c.toNat && c.toNat ≤ 57

/-- Value of a hexadecimal digit of either case. -/
def hexVal (c : Char) : Option Nat :=
  if 48 ≤ c.toNat ∧ c.toNat ≤ 57 then some (c.toNat - 48)
  else if 97 ≤ c.toNat ∧ c.toNat ≤ 102 then some (c.toNat - 87)
  else if 65 ≤ c.toNat ∧ c.toNat ≤ 70 then some (c.toNat - 55)
  else none

/-- Four hexadecimal digits (Go `getu4`, after the `\u`). -/
def hex4 : List Char → Option (Nat × List Char)
  | a :: b :: c :: d :: rest =>
    match hexVal a, hexVal b, hexVal c, hexVal d with
    | some x, some y, some z, some w => some (((x * 16 + y) * 16 + z) * 16 + w, rest)
    | _, _, _, _ => none
  | _ => none

/-- The Unicode replacement character U+FFFD. -/
def replacementChar : Char := Char.ofNat 0xFFFD

/-- The character denoted by a `\u` escape, read after the `u`: a surrogate followed by the
escape of a low surrogate is the pair's code point, any other surrogate is U+FFFD. -/
def unescapeU (cs : List Char) : Option (Char × List Char) :=
  match hex4 cs with
  | none => none
  | some (r, rest) =>
    if 0xD800 ≤ r ∧ r < 0xE000 then
      match rest with
      | '\\' :: 'u' :: rest2 =>
        match hex4 rest2 with
        | some (r2, rest3) =>
          if r < 0xDC00 ∧ 0xDC00 ≤ r2 ∧ r2 < 0xE000 then
            some (Char.ofNat ((r - 0xD800) * 0x400 + (r2 - 0xDC00) + 0x10000), rest3)
          else some (replacementChar, rest)
        | none => some (replacementChar, rest)
      | _ => some (replacementChar, rest)
    else some (Char.ofNat r, rest)

/-- The character denoted by a one-letter escape. -/
def unescapeChar (e : Char) : Option Char :=
  if e = '"' then some '"'
  else if e = '\\' then some '\\'
  else if e = '/' then some '/'
  else if e = 'b' then some (Char.ofNat 8)
  else if e = 'f' then some (Char.ofNat 12)
  else if e = 'n' then some '\n'
  else if e = 'r' then some '\r'
  else if e = 't' then some '\t'
  else none

/-- Read a string literal after its opening quote; `acc` holds the characters read so far. -/
def scanString : Nat → List Char → List Char → Option (String × List Char)
  | 0, _, _ => none
  | fuel + 1, cs, acc =>
    match cs with
    | [] => none
    | c :: rest =>
      if c = '"' then some (String.mk acc, rest)
      else if c = '\\' then
        match rest with
        | [] => none
        | e :: rest2 =>
          if e = 'u' then
            match unescapeU rest2 with
            | some (r, rest3) => scanString fuel rest3 (acc ++ [r])
            | none => none
          else
            match unescapeChar e with
            | some r => scanString fuel rest2 (acc ++ [r])
            | none => none
      else if c.toNat < 32 then none
      else scanString fuel rest (acc ++ [c])

/-- Split off the leading decimal digits. -/
def spanDigits : List Char → List Char × List Char
  | [] => ([], [])
  | c :: cs => if isDigit c then (c :: (spanDigits cs).1, (spanDigits cs).2) else ([], c :: cs)

/-- Optional fraction of a number: whether there is one, and the input after it. -/
def scanFraction (cs : List Char) : Option (Bool × List Char) :=
  match cs with
  | [] => some (false, [])
  | c :: rest =>
    if c = '.' then
      (if (spanDigits rest).1 = [] then none else some (true, (spanDigits rest).2))
    else some (false, c :: rest)

/-- Drop an optional sign of an exponent. -/
def skipSign : List Char → List Char
  | [] => []
  | c :: rest => if c = '+' ∨ c = '-' then rest else c :: rest

/-- Optional exponent of a number: whether there is one, and the input after it. -/
def scanExponent (cs : List Char) : Option (Bool × List Char) :=
  match cs with
  | [] => some (false, [])
  | c :: rest =>
    if c = 'e' ∨ c = 'E' then
      (if (spanDigits (skipSign rest)).1 = [] then none
       else some (true, (spanDigits (skipSign rest)).2))
    else some (false, c :: rest)

/-- Read a number literal after its optional minus sign. -/
def scanUnsigned (neg : Bool) (cs : List Char) : Option (JVal × List Char) :=
  match (spanDigits cs).1 with
  | [] => none
  | d :: ds =>
    if d = '0' ∧ ds ≠ [] then none
    else
      match scanFraction (spanDigits cs).2 with
      | none => none
      | some (f, r1) =>
        match scanExponent r1 with
        | none => none
        | some (e, r2) => some (JVal.num neg (d :: ds) (!f && !e), r2)

/-- Read a number literal. -/
def scanNumber (cs : List Char) : Option (JVal × List Char) :=
  match cs with
  | [] => none
  | c :: rest => if c = '-' then scanUnsigned true rest else scanUnsigned false (c :: rest)

/-- Read the rest of a literal name. -/
def scanWord (word : List Char) (v : JVal) (cs : List Char) : Option (JVal × List Char) :=
  if cs.take word.length = word then some (v, cs.drop word.length) else none

mutual
/-- Read one JSON value. -/
def parseValue : Nat → List Char → Option (JVal × List Char)
  | 0, _ => none
  | fuel + 1, cs =>
    match skipSpace cs with
    | [] => none
    | c :: rest =>
      if c = '{' then
        match skipSpace rest with
        | [] => none
        | d :: rest1 =>
          if d = '}' then some (JVal.obj [], rest1)
          else
            match parseMembers fuel (d :: rest1) with
            | some (ms, r) => some (JVal.obj ms, r)
            | none => none
      else if c = '[' then
        match skipSpace rest with
        | [] => none
        | d :: rest1 =>
          if d = ']' then some (JVal.arr [], rest1)
          else
            match parseItems fuel (d :: rest1) with
            | some (xs, r) => some (JVal.arr xs, r)
            | none => none
      else if c = '"' then
        match scanString (rest.length + 1) rest [] with
        | some (s, r) => some (JVal.str s, r)
        | none => none
      else if c = 't' then scanWord ['r', 'u', 'e'] (JVal.bool true) rest
      else if c = 'f' then scanWord ['a', 'l', 's', 'e'] (JVal.bool false) rest
      else if c = 'n' then scanWord ['u', 'l', 'l'] JVal.null rest
      else scanNumber (c :: rest)
/-- Read the members of an object up to its closing brace. -/
def parseMembers : Nat → List Char → Option (List (String × JVal) × List Char)
  | 0, _ => none
  | fuel + 1, cs =>
    match skipSpace cs with
    | [] => none
    | q :: rest =>
      if q = '"' then
        match scanString (rest.length + 1) rest [] with
        | none => none
        | some (k, r1) =>
          match skipSpace r1 with
          | [] => none
          | colon :: r2 =>
            if colon = ':' then
              match parseValue fuel r2 with
              | none => none
              | some (v, r3) =>
                match skipSpace r3 with
                | [] => none
                | sep :: r4 =>
                  if sep = ',' then
                    match parseMembers fuel r4 with
                    | some (ms, r5) => some ((k, v) :: ms, r5)
                    | none => none
                  else if sep = '}' then some ([(k, v)], r4)
                  else none
            else none
      else none
/-- Read the items of an array up to its closing bracket. -/
def parseItems : Nat → List Char → Option (List JVal × List Char)
  | 0, _ => none
  | fuel + 1, cs =>
    match parseValue fuel cs with
    | none => none
    | some (v, r1) =>
      match skipSpace r1 with
      | [] => none
      | sep :: r2 =>
        if sep = ',' then
          match parseItems fuel r2 with
          | some (xs, r3) => some (v :: xs, r3)
          | none => none
        else if sep = ']' then some ([v], r2)
        else none
end

/-- Parse a whole document: one value, then only white space.  (Go also refuses documents
nested deeper than 10000 levels; the model has no such bound.) -/
def parseJSON (data : String) : Option JVal :=
  match parseValue (data.length + 1) data.data with
  | some (v, rest) => if skipSpace rest = [] then some v else none
  | none => none

/-- Value of a sequence of decimal digits. -/
def digitsValue (ds : List Char) : Nat :=
  ds.foldl (fun a c => 10 * a + (c.toNat - 48)) 0

/-- Case folding of a character as far as it can meet an ASCII letter: upper-case ASCII,
the long s (U+017F) and the Kelvin sign (U+212A) fold to their lower-case ASCII letter. -/
def foldRune (c : Char) : Char :=
  if 65 ≤ c.toNat ∧ c.toNat ≤ 90 then Char.ofNat (c.toNat + 32)
  else if c.toNat = 0x17F then 's'
  else if c.toNat = 0x212A then 'k'
  else c

/-- Does an object key select the struct field with this (lower-case ASCII) JSON name?
Go takes the exact match, or else the match under case folding. -/
def fieldMatches (key name : String) : Bool :=
  key = name || key.data.map foldRune = name.data

/-- The error of a syntactically invalid document (its text stands for Go's message). -/
def jsonSyntaxError : GoError := GoError.text "json: invalid JSON input"

/-- The error of a value that does not fit the Go type it is decoded into (its text stands for
Go's message). -/
def jsonTypeError : GoError := GoError.text "json: cannot unmarshal value into Go type"

/-- Decode a value into an `int64` field: `null` leaves the field as it is (`none`), an integer
literal in range sets it, anything else is a type error. -/
def decodeInt : JVal → Except GoError (Option I64)
  | JVal.null => .ok none
  | JVal.num neg ds integral =>
    if integral then
      if h : minInt64 ≤ (if neg then -(digitsValue ds : Int) else (digitsValue ds : Int)) ∧
          (if neg then -(digitsValue ds : Int) else (digitsValue ds : Int)) ≤ maxInt64 then
        .ok (some ⟨_, h⟩)
      else .error jsonTypeError
    else .error jsonTypeError
  | _ => .error jsonTypeError

/-- Decode a value into a `string` field. -/
def decodeString : JVal → Except GoError (Option String)
  | JVal.null => .ok none
  | JVal.str s => .ok (some s)
  | _ => .error jsonTypeError

/-- Fill a `models.RefreshToken` from the members of an object, in order; keys that select no
field are skipped. -/
def fillRefreshToken : List (String × JVal) → RefreshToken → Except GoError RefreshToken
  | [], t => .ok t
  | (k, v) :: ms, t =>
    if fieldMatches k "user_id" then
      match decodeInt v with
      | .error e => .error e
      | .ok none => fillRefreshToken ms t
      | .ok (some i) => fillRefreshToken ms { t with UserID := i }
    else if fieldMatches k "role" then
      match decodeString v with
      | .error e => .error e
      | .ok none => fillRefreshToken ms t
      | .ok (some r) => fillRefreshToken ms { t with Role := r }
    else fillRefreshToken ms t

/-- Fill a `models.ConfirmCode` from the members of an object, in order. -/
def fillConfirmCode : List (String × JVal) → ConfirmCode → Except GoError ConfirmCode
  | [], c => .ok c
  | (k, v) :: ms, c =>
    if fieldMatches k "user_id" then
      match decodeInt v with
      | .error e => .error e
      | .ok none => fillConfirmCode ms c
      | .ok (some i) => fillConfirmCode ms { c with UserID := i }
    else if fieldMatches k "name" then
      match decodeString v with
      | .error e => .error e
      | .ok none => fillConfirmCode ms c
      | .ok (some n) => fillConfirmCode ms { c with Name := n }
    else if fieldMatches k "code" then
      match decodeInt v with
      | .error e => .error e
      | .ok none => fillConfirmCode ms c
      | .ok (some i) => fillConfirmCode ms { c with Code := i }
    else fillConfirmCode ms c

/-- The zero value of `models.RefreshToken`. -/
def zeroRefreshToken : RefreshToken := ⟨0, ""⟩

/-- The zero value of `models.ConfirmCode`. -/
def zeroConfirmCode : ConfirmCode := ⟨0, "", 0⟩

/-- Go `json.Unmarshal(data, &token)` for `var token models.RefreshToken`: a `null` document
leaves the zero value, an object fills it, any other value is a type error. -/
def unmarshalRefreshToken (data : String) : Except GoError RefreshToken :=
  match parseJSON data with
  | none => .error jsonSyntaxError
  | some JVal.null => .ok zeroRefreshToken
  | some (JVal.obj ms) => fillRefreshToken ms zeroRefreshToken
  | some _ => .error jsonTypeError

/-- Go `json.Unmarshal(data, &confirmData)` for `var confirmData models.ConfirmCode`. -/
def unmarshalConfirmCode (data : String) : Except GoError ConfirmCode :=
  match parseJSON data with
  | none => .error jsonSyntaxError
  | some JVal.null => .ok zeroConfirmCode
  | some (JVal.obj ms) => fillConfirmCode ms zeroConfirmCode
  | some _ => .error jsonTypeError

/-- Go `json.Unmarshal(data, &data)` for `var data *models.ConfirmCode`: a `null` document
leaves the pointer nil (`none`), an object allocates a record and fills it. -/
def unmarshalConfirmCodePtr (data : String) : Except GoError (Option ConfirmCode) :=
  match parseJSON data with
  | none => .error jsonSyntaxError
  | some JVal.null => .ok none
  | some (JVal.obj ms) =>
    match fillConfirmCode ms zeroConfirmCode with
    | .ok c => .ok (some c)
    | .error e => .error e
  | some _ => .error jsonTypeError

/-- A character that ends a number inside an object: a comma or the closing brace. -/
def isDelim (c : Char) : Prop := c = ',' ∨ c = '\x7d'

deriving instance DecidableEq for Except

/-! ## The Redis client -/

/-- One key of the Redis database: its value, and the expiration the `SET` that wrote it was
given (go-redis: a positive duration is the time to live, `0` is no expiry). -/
structure Entry where
  key : String
  value : String
  expiration : Int
  deriving DecidableEq

/-- The contents of the Redis database behind `Store.rdb`. -/
abbrev Rdb := List Entry

/-- What `rdb.Get(ctx, key).Result()` gives: the value, the error `redis.Nil` of an absent
(or expired) key, or another error. -/
inductive GetResult where
  | value (data : String)
  | Nil
  | failed (err : GoError)
  deriving DecidableEq

/-- Redis `GET`.  `fault` is the failure of the command, if the backend fails it. -/
def Rdb.Get (db : Rdb) (fault : Option GoError) (key : String) : GetResult :=
  match fault with
  | some e => GetResult.failed e
  | none =>
    match db.find? (fun en => en.key = key) with
    | some en => GetResult.value en.value
    | none => GetResult.Nil

/-- Redis `SET` with an expiration: the key holds the new value only. -/
def Rdb.Set (db : Rdb) (fault : Option GoError) (key value : String) (expiration : Int) :
    Rdb × Option GoError :=
  match fault with
  | some e => (db, some e)
  | none => (⟨key, value, expiration⟩ :: db.filter (fun en => en.key ≠ key), none)

/-- Redis `DEL`: deleting an absent key is no error. -/
def Rdb.Del (db : Rdb) (fault : Option GoError) (key : String) : Rdb × Option GoError :=
  match fault with
  | some e => (db, some e)
  | none => (db.filter (fun en => en.key ≠ key), none)

/-- The lapse of the TTL of a key: the backend drops it. -/
def Rdb.expire (db : Rdb) (key : String) : Rdb :=
  db.filter (fun en => en.key ≠ key)

/-- The entries stored under a key. -/
def Rdb.entriesAt (db : Rdb) (key : String) : List Entry :=
  db.filter (fun en => en.key = key)

/-! ## store/store.go -/

/-- Go constant `refreshTokenPattern`. -/
def refreshTokenPattern : String := "refresh_token:%s"

/-- Go constant `confirmTokenPattern`. -/
def confirmTokenPattern : String := "confirm_token:%s"

/-- Go constant `confirmCodeTimeLive = time.Minute * 5`, in nanoseconds. -/
def confirmCodeTimeLive : Int := 60 * 1000000000 * 5

/-- Put the argument in the place of the first `%s` verb of the format. -/
def sprintfAux : List Char → List Char → List Char
  | [], _ => []
  | [c], _ => [c]
  | c :: d :: rest, arg =>
    if c = '%' ∧ d = 's' then arg ++ rest else c :: sprintfAux (d :: rest) arg

/-- Go `fmt.Sprintf(format, arg)` for a format with one `%s` verb and a string argument. -/
def Sprintf (format arg : String) : String :=
  String.mk (sprintfAux format.data arg.data)

/-- Go `json.Marshal(data)` for `data *models.RefreshToken`; it has no failing case. -/
def jsonMarshalRefreshToken (data : RefreshToken) : Except GoError String :=
  .ok (marshalRefreshToken data)

/-- Go `json.Marshal(data)` for `data *models.ConfirmCode`; it has no failing case. -/
def jsonMarshalConfirmCode (data : ConfirmCode) : Except GoError String :=
  .ok (marshalConfirmCode data)

/-- How a call that may panic ends. -/
inductive Outcome (α : Type) where
  | ok (a : α)
  | error (e : GoError)
  | panic (msg : String)
  deriving DecidableEq

/-- Go `Store.SaveRefreshToken`.  Returns the database afterwards and the error (`none`: nil). -/
def Store.SaveRefreshToken (db : Rdb) (setFault : Option GoError) (userID : I64)
    (role refreshToken : String) (expirationTime : Int) : Rdb × Option GoError :=
  let key := Sprintf refreshTokenPattern refreshToken
  let data : RefreshToken := { UserID := userID, Role := role }
  match jsonMarshalRefreshToken data with
  | .error err => (db, some (GoError.Internal err))
  | .ok jsonData =>
    match db.Set setFault key jsonData expirationTime with
    | (db1, some err) =>
      (db1, some (GoError.InternalWithoutStackTrace
        (GoError.wrapf "failed to save refresh token: " err)))
    | (db1, none) => (db1, none)

/-- Go `Store.SaveConfirmCode`.  A stored document `null` leaves `data` nil, and the
assignment `data.Code = confirmCode` then panics. -/
def Store.SaveConfirmCode (db : Rdb) (getFault setFault : Option GoError) (userID : I64)
    (email name : String) (confirmCode : I64) : Rdb × Outcome Unit :=
  let key := Sprintf confirmTokenPattern email
  match db.Get getFault key with
  | GetResult.Nil =>
    let data : ConfirmCode := { UserID := userID, Name := name, Code := confirmCode }
    match jsonMarshalConfirmCode data with
    | .error err => (db, Outcome.error (GoError.Internal err))
    | .ok jsonData =>
      match db.Set setFault key jsonData confirmCodeTimeLive with
      | (db1, some err) => (db1, Outcome.error (GoError.InternalWithoutStackTrace err))
      | (db1, none) => (db1, Outcome.ok ())
  | GetResult.failed err =>
    (db, Outcome.error (GoError.InternalWithoutStackTrace
      (GoError.wrapf "failed to fetch confirm code: " err)))
  | GetResult.value codeData =>
    match unmarshalConfirmCodePtr codeData with
    | .error err => (db, Outcome.error (GoError.Internal err))
    | .ok none => (db, Outcome.panic "invalid memory address or nil pointer dereference")
    | .ok (some data0) =>
      let data : ConfirmCode := { data0 with Code := confirmCode }
      match jsonMarshalConfirmCode data with
      | .error err => (db, Outcome.error (GoError.Internal err))
      | .ok jsonData =>
        match db.Set setFault key jsonData confirmCodeTimeLive with
        | (db1, some err) =>
          (db1, Outcome.error (GoError.InternalWithoutStackTrace
            (GoError.wrapf "failed to save confirm token: " err)))
        | (db1, none) => (db1, Outcome.ok ())

/-- Go `Store.ValidateRefreshToken`. -/
def Store.ValidateRefreshToken (db : Rdb) (getFault : Option GoError) (refreshToken : String) :
    Except GoError RefreshToken :=
  let key := Sprintf refreshTokenPattern refreshToken
  match db.Get getFault key with
  | GetResult.Nil =>
    .error (GoError.InternalWithoutStackTrace (GoError.text "invalid or expired refresh token"))
  | GetResult.failed err =>
    .error (GoError.InternalWithoutStackTrace
      (GoError.wrapf "failed to validate refresh token: " err))
  | GetResult.value data =>
    match unmarshalRefreshToken data with
    | .error err => .error (GoError.Internal err)
    | .ok token => .ok token

/-- Go `Store.ValidateConfirmCode`. -/
def Store.ValidateConfirmCode (db : Rdb) (getFault : Option GoError) (email : String) :
    Except GoError ConfirmCode :=
  let key := Sprintf confirmTokenPattern email
  match db.Get getFault key with
  | GetResult.Nil =>
    .error (GoError.InternalWithoutStackTrace (GoError.text "invalid or expired confirm code"))
  | GetResult.failed err =>
    .error (GoError.InternalWithoutStackTrace
      (GoError.wrapf "failed to validate confirm code: " err))
  | GetResult.value data =>
    match unmarshalConfirmCode data with
    | .error err => .error (GoError.Internal err)
    | .ok confirmData => .ok confirmData

/-- Go `Store.RemoveRefreshToken`. -/
def Store.RemoveRefreshToken (db : Rdb) (delFault : Option GoError) (refreshToken : String) :
    Rdb × Option GoError :=
  db.Del delFault (Sprintf refreshTokenPattern refreshToken)

/-- Go `Store.RemoveConfirmCode`. -/
def Store.RemoveConfirmCode (db : Rdb) (delFault : Option GoError) (email : String) :
    Rdb × Option GoError :=
  db.Del delFault (Sprintf confirmTokenPattern email)

/-! ## service/service.go -/

/-- Modelled from the spec: the generated `users.User` (package `gen/users`, not among the
sources), with the fields the service computes with: the identity `{id, role}`, the email and
the full name.  The response carries the provider's record over field by field. -/
structure User where
  Id : I64
  Email : String
  FullName : String
  Role : String
  deriving DecidableEq

/-- Modelled from the spec: the generated `users.CreateUserRequest` (package `gen/users`),
with the three inputs of Register. -/
structure CreateUserRequest where
  Email : String
  FullName : String
  Password : String
  deriving DecidableEq

/-- Modelled from the spec: the generated `auth.RegisterResponse` (package `gen/auth`): the
access token, the refresh token and the profile. -/
structure RegisterResponse where
  AccessToken : String
  RefreshToken : String
  User : User
  deriving DecidableEq

/-- The routing keys `rabbits.ConfirmUserEmailKey` and `rabbits.SuccessConfirmUserEmailKey`. -/
inductive RoutingKey where
  | ConfirmUserEmailKey
  | SuccessConfirmUserEmailKey
  deriving DecidableEq

/-- Modelled from the spec: the mail records `models.ConfirmEmailMail` and
`models.SuccessConfirmEmailMail`, whose declarations are not in `models/tokens.go`; the fields
are those the service sets (name, email, code, validity in minutes; name, email).  Encoding
them does not fail. -/
inductive Mail where
  | ConfirmEmailMail (Name Email : String) (Code : I64) (Time : Int)
  | SuccessConfirmEmailMail (Name Email : String)
  deriving DecidableEq

/-- The places where the store issues a Redis command. -/
inductive RdbCall where
  | SaveRefreshToken_Set
  | SaveConfirmCode_Get
  | SaveConfirmCode_Set
  | ValidateRefreshToken_Get
  | ValidateConfirmCode_Get
  | RemoveRefreshToken_Del
  | RemoveConfirmCode_Del
  deriving DecidableEq

/-- What the collaborators of the service answer during one request: the identity provider
(`usersClient`), the token issuer (`jwt`), the publisher, and the failures of the backend per
Redis command (`none`: the command is carried out).  A successful answer of `CreateUser` is
taken to carry the user record (`res.User` is not nil). -/
structure Deps where
  CreateUser : CreateUserRequest → Except GoError User
  ConfirmUser : I64 → Option GoError
  GenerateToken : I64 → String → Except GoError String
  GenerateRefreshToken : Except GoError String
  GenerateCode : I64
  GetRefreshExpiration : Int
  Publish : RoutingKey → Mail → Option GoError
  rdbFault : RdbCall → Option GoError

/-- A call made to the identity provider, the access-token signer or the publisher. -/
inductive Call where
  | CreateUser (req : CreateUserRequest)
  | ConfirmUser (userId : I64)
  | GenerateToken (id : I64) (role : String)
  | Publish (key : RoutingKey) (mail : Mail)
  deriving DecidableEq

/-- The run of a service method: the database afterwards, the calls made in order, and what
the method returns. -/
structure Run (α : Type) where
  rdb : Rdb
  calls : List Call
  result : α

/-- Go `Service.CreateEmailConfirmation`. -/
def Service.CreateEmailConfirmation (db : Rdb) (d : Deps) (userID : I64) (email name : String) :
    Run (Outcome Unit) :=
  let confirmCode := d.GenerateCode
  match Store.SaveConfirmCode db (d.rdbFault RdbCall.SaveConfirmCode_Get)
      (d.rdbFault RdbCall.SaveConfirmCode_Set) userID email name confirmCode with
  | (db1, Outcome.panic m) => ⟨db1, [], Outcome.panic m⟩
  | (db1, Outcome.error err) => ⟨db1, [], Outcome.error (GoError.Internal err)⟩
  | (db1, Outcome.ok ()) =>
    let mail := Mail.ConfirmEmailMail name email confirmCode 5
    match d.Publish RoutingKey.ConfirmUserEmailKey mail with
    | some err =>
      ⟨db1, [Call.Publish RoutingKey.ConfirmUserEmailKey mail],
        Outcome.error (GoError.Internal err)⟩
    | none => ⟨db1, [Call.Publish RoutingKey.ConfirmUserEmailKey mail], Outcome.ok ()⟩

/-- Go `Service.Register`.  An error of `CreateEmailConfirmation` is logged only. -/
def Service.Register (db : Rdb) (d : Deps) (req : CreateUserRequest) :
    Run (Outcome RegisterResponse) :=
  match d.CreateUser req with
  | .error err => ⟨db, [Call.CreateUser req], Outcome.error err⟩
  | .ok user =>
    match d.GenerateToken user.Id user.Role with
    | .error err =>
      ⟨db, [Call.CreateUser req, Call.GenerateToken user.Id user.Role],
        Outcome.error (GoError.Internal err)⟩
    | .ok accessToken =>
      match d.GenerateRefreshToken with
      | .error err =>
        ⟨db, [Call.CreateUser req, Call.GenerateToken user.Id user.Role],
          Outcome.error (GoError.Internal err)⟩
      | .ok refreshToken =>
        match Store.SaveRefreshToken db (d.rdbFault RdbCall.SaveRefreshToken_Set) user.Id
            user.Role refreshToken d.GetRefreshExpiration with
        | (db1, some err) =>
          ⟨db1, [Call.CreateUser req, Call.GenerateToken user.Id user.Role],
            Outcome.error (GoError.Internal err)⟩
        | (db1, none) =>
          let conf := Service.CreateEmailConfirmation db1 d user.Id user.Email user.FullName
          match conf.result with
          | Outcome.panic m =>
            ⟨conf.rdb, [Call.CreateUser req, Call.GenerateToken user.Id user.Role] ++ conf.calls,
              Outcome.panic m⟩
          | _ =>
            ⟨conf.rdb, [Call.CreateUser req, Call.GenerateToken user.Id user.Role] ++ conf.calls,
              Outcome.ok { AccessToken := accessToken, RefreshToken := refreshToken,
                           User := user }⟩

/-- Go `Service.RefreshToken`. -/
def Service.RefreshToken (db : Rdb) (d : Deps) (refreshToken : String) :
    Run (Except GoError String) :=
  match Store.ValidateRefreshToken db (d.rdbFault RdbCall.ValidateRefreshToken_Get)
      refreshToken with
  | .error err => ⟨db, [], .error (GoError.Internal err)⟩
  | .ok tokeData =>
    ⟨db, [Call.GenerateToken tokeData.UserID tokeData.Role],
      d.GenerateToken tokeData.UserID tokeData.Role⟩

/-- Go `Service.VerifyUser`.  Returns the error (`none`: nil). -/
def Service.VerifyUser (db : Rdb) (d : Deps) (email : String) (confirmCode : I64) :
    Run (Option GoError) :=
  match Store.ValidateConfirmCode db (d.rdbFault RdbCall.ValidateConfirmCode_Get) email with
  | .error err => ⟨db, [], some err⟩
  | .ok data =>
    if data.Code ≠ confirmCode then
      ⟨db, [], some (GoError.BadRequestHidden GoError.nil "Confirm code is incorrect")⟩
    else
      match d.ConfirmUser data.UserID with
      | some err => ⟨db, [Call.ConfirmUser data.UserID], some err⟩
      | none =>
        let db1 :=
          (Store.RemoveConfirmCode db (d.rdbFault RdbCall.RemoveConfirmCode_Del) email).1
        let mail := Mail.SuccessConfirmEmailMail data.Name email
        match d.Publish RoutingKey.SuccessConfirmUserEmailKey mail with
        | some err =>
          ⟨db1, [Call.ConfirmUser data.UserID,
              Call.Publish RoutingKey.SuccessConfirmUserEmailKey mail],
            some (GoError.Internal err)⟩
        | none =>
          ⟨db1, [Call.ConfirmUser data.UserID,
              Call.Publish RoutingKey.SuccessConfirmUserEmailKey mail], none⟩

/-! ## handler/handlers.go -/

/-- Modelled from the spec: the generated `auth.CreateConfirmUserCodeRequest` (package
`gen/auth`, not among the sources), with the two inputs of the resend entry point: the email
and the full name. -/
structure CreateConfirmUserCodeRequest where
  Email : String
  FullName : String
  deriving DecidableEq

/-- Go `Handler.CreateConfirmUserCode`: the user id handed to the service is the constant
`-1`.  The response is always nil; what is returned here is the error part. -/
def Handler.CreateConfirmUserCode (db : Rdb) (d : Deps)
    (request : CreateConfirmUserCodeRequest) : Run (Outcome Unit) :=
  Service.CreateEmailConfirmation db d (I64.wrap (-1)) request.Email request.FullName

/-! ## Conditions on the stored documents -/

/-- The confirmation slot of an email holds the JSON document `null`.  The store never writes
such a document; on one, `SaveConfirmCode` dereferences a nil pointer. -/
def confirmSlotNull (db : Rdb) (email : String) : Bool :=
  match db.Get none (Sprintf confirmTokenPattern email) with
  | GetResult.value p => decide (unmarshalConfirmCodePtr p = .ok none)
  | _ => false

/-- The confirmation slot of an email is empty or holds a document that decodes to a record. -/
def confirmSlotWellFormed (db : Rdb) (email : String) : Bool :=
  match db.Get none (Sprintf confirmTokenPattern email) with
  | GetResult.Nil => true
  | GetResult.value p =>
    match unmarshalConfirmCodePtr p with
    | .ok (some _) => true
    | _ => false
  | GetResult.failed _ => false

/-- The kind of the error of a result, if it is one. -/
def errorKind {α : Type} : Except GoError α → Option ErrKind
  | .error e => some e.kind
  | .ok _ => none

/-- The message of the error of a result, if it is one. -/
def errorMessage {α : Type} : Except GoError α → Option String
  | .error e => some e.message
  | .ok _ => none

/-! ## Sample requests -/

/-- A request during which every collaborator succeeds: the provider returns `user`, the
issuer signs `accessToken`, generates `refreshToken` and `code`, and the backend carries out
every command. -/
def Deps.succeeding (user : User) (accessToken refreshToken : String) (code : I64)
    (refreshExpiration : Int) : Deps where
  CreateUser := fun _ => .ok user
  ConfirmUser := fun _ => none
  GenerateToken := fun _ _ => .ok accessToken
  GenerateRefreshToken := .ok refreshToken
  GenerateCode := code
  GetRefreshExpiration := refreshExpiration
  Publish := fun _ _ => none
  rdbFault := fun _ => none

/-- The provider's record of the sample registration: id 7, role "user", "a@x.com", "Ann". -/
def sampleUser : User := { Id := 7, Email := "a@x.com", FullName := "Ann", Role := "user" }

/-- The sample request: every collaborator succeeds, the code generated is 222222 and the
refresh expiration is 30 days. -/
def sampleDeps : Deps := Deps.succeeding sampleUser "access-1" "refresh-1" 222222 2592000000000000

/-- The sample request with the identity provider refusing `ConfirmUser`. -/
def sampleDepsConfirmFails : Deps :=
  { sampleDeps with ConfirmUser := fun _ => some (GoError.text "rpc error: user not found") }

/-- A database holding one confirmation record. -/
def confirmDb (email : String) (c : ConfirmCode) : Rdb :=
  [{ key := Sprintf confirmTokenPattern email, value := marshalConfirmCode c,
     expiration := confirmCodeTimeLive }]

/-- A database holding one refresh-token record. -/
def refreshDb (token : String) (r : RefreshToken) (expiration : Int) : Rdb :=
  [{ key := Sprintf refreshTokenPattern token, value := marshalRefreshToken r,
     expiration := expiration }]

/-- A database whose confirmation slot for the email holds the JSON document `null`. -/
def nullSlotDb (email : String) : Rdb :=
  [{ key := Sprintf confirmTokenPattern email, value := "null",
     expiration := confirmCodeTimeLive }]

/-! ## Lemmas on the JSON codec -/

theorem formatNatAux_eq : ∀ (n fuel : Nat) (acc : List Char), n < fuel →
    formatNatAux fuel n acc = formatNat n ++ acc := by
  intro n
  induction n using Nat.strong_induction_on with
  | _ n ih =>
    intro fuel acc hlt
    obtain ⟨f, rfl⟩ : ∃ f, fuel = f + 1 := ⟨fuel - 1, by omega⟩
    by_cases h10 : n < 10
    · simp [formatNat, formatNatAux, h10]
    · have hdiv : n / 10 < n := Nat.div_lt_self (by omega) (by omega)
      have e1 : formatNatAux (f + 1) n acc
          = formatNatAux f (n / 10) (digitChar (n % 10) :: acc) := by
        simp [formatNatAux, h10]
      have e2 : formatNat n = formatNatAux n (n / 10) [digitChar (n % 10)] := by
        simp [formatNat, formatNatAux, h10]
      rw [e1, e2, ih (n / 10) hdiv f _ (by omega), ih (n / 10) hdiv n _ hdiv]
      simp

theorem formatNat_small {n : Nat} (h : n < 10) : formatNat n = [digitChar n] := by
  simp [formatNat, formatNatAux, h]

theorem formatNat_step {n : Nat} (h : ¬ n < 10) :
    formatNat n = formatNat (n / 10) ++ [digitChar (n % 10)] := by
  have hdiv : n / 10 < n := Nat.div_lt_self (by omega) (by omega)
  have e2 : formatNat n = formatNatAux n (n / 10) [digitChar (n % 10)] := by
    simp [formatNat, formatNatAux, h]
  rw [e2, formatNatAux_eq _ _ _ hdiv]

theorem digitChar_toNat {d : Nat} (h : d < 10) : (digitChar d).toNat = 48 + d := by
  have : ∀ d, d < 10 → (digitChar d).toNat = 48 + d := by decide
  exact this d h

theorem isDigit_digitChar {d : Nat} (h : d < 10) : isDigit (digitChar d) = true := by
  simp [isDigit, digitChar_toNat h]
  omega

theorem formatNat_digits : ∀ (n : Nat), ∀ c ∈ formatNat n, isDigit c = true := by
  intro n
  induction n using Nat.strong_induction_on with
  | _ n ih =>
    intro c hc
    by_cases h10 : n < 10
    · rw [formatNat_small h10] at hc
      simp at hc
      subst hc
      exact isDigit_digitChar h10
    · rw [formatNat_step h10] at hc
      simp at hc
      rcases hc with hc | hc
      · exact ih (n / 10) (Nat.div_lt_self (by omega) (by omega)) c hc
      · subst hc
        exact isDigit_digitChar (Nat.mod_lt _ (by omega))

theorem digitsValue_append (xs : List Char) (c : Char) :
    digitsValue (xs ++ [c]) = 10 * digitsValue xs + (c.toNat - 48) := by
  simp [digitsValue, List.foldl_append]

theorem digitsValue_formatNat : ∀ (n : Nat), digitsValue (formatNat n) = n := by
  intro n
  induction n using Nat.strong_induction_on with
  | _ n ih =>
    by_cases h10 : n < 10
    · rw [formatNat_small h10]
      simp [digitsValue, digitChar_toNat h10]
    · rw [formatNat_step h10, digitsValue_append,
        ih (n / 10) (Nat.div_lt_self (by omega) (by omega)),
        digitChar_toNat (Nat.mod_lt _ (by omega))]
      omega

theorem formatNat_head : ∀ (n : Nat), ∃ d ds, formatNat n = d :: ds ∧
    isDigit d = true ∧ ¬ (d = '0' ∧ ds ≠ []) := by
  intro n
  induction n using Nat.strong_induction_on with
  | _ n ih =>
    by_cases h10 : n < 10
    · exact ⟨digitChar n, [], formatNat_small h10, isDigit_digitChar h10, by simp⟩
    · obtain ⟨d, ds, he, hd, hz⟩ := ih (n / 10) (Nat.div_lt_self (by omega) (by omega))
      refine ⟨d, ds ++ [digitChar (n % 10)], ?_, hd, ?_⟩
      · rw [formatNat_step h10, he]; simp
      · rintro ⟨h0, -⟩
        by_cases hds : ds = []
        · subst hds; subst h0
          have hv := digitsValue_formatNat (n / 10)
          rw [he] at hv
          simp [digitsValue] at hv
          omega
        · exact hz ⟨h0, hds⟩

theorem spanDigits_append (ds : List Char) (c : Char) (rest : List Char)
    (hds : ∀ x ∈ ds, isDigit x = true) (hc : isDigit c = false) :
    spanDigits (ds ++ c :: rest) = (ds, c :: rest) := by
  induction ds with
  | nil => simp [spanDigits, hc]
  | cons d ds ih =>
    have hd : isDigit d = true := hds d (by simp)
    have := ih (fun x hx => hds x (by simp [hx]))
    simp [spanDigits, hd, this]


theorem scanUnsigned_formatNat (neg : Bool) (n : Nat) (c : Char) (rest : List Char)
    (hc : isDelim c) :
    scanUnsigned neg (formatNat n ++ c :: rest)
      = some (JVal.num neg (formatNat n) true, c :: rest) := by
  obtain ⟨d, ds, he, -, hz⟩ := formatNat_head n
  have hnd : isDigit c = false := by
    rcases hc with rfl | rfl <;> decide
  have hsp := spanDigits_append (formatNat n) c rest (formatNat_digits n) hnd
  unfold scanUnsigned
  rw [hsp]
  simp only [he]
  rw [if_neg hz]
  rcases hc with rfl | rfl <;> simp [scanFraction, scanExponent]

theorem scanNumber_formatInt (i : Int) (c : Char) (rest : List Char) (hc : isDelim c) :
    scanNumber (formatInt i ++ c :: rest)
      = some (JVal.num (decide (i < 0)) (formatNat i.natAbs) true, c :: rest) := by
  by_cases hneg : i < 0
  · simp [formatInt, hneg, scanNumber, scanUnsigned_formatNat _ _ _ _ hc]
  · obtain ⟨d, ds, he, hd, -⟩ := formatNat_head i.natAbs
    have hm : d ≠ '-' := by
      rintro rfl
      revert hd; decide
    have := scanUnsigned_formatNat false i.natAbs c rest hc
    rw [he] at this
    simp [formatInt, hneg, scanNumber, he, hm]
    simpa using this

theorem decodeInt_format (i : I64) :
    decodeInt (JVal.num (decide (i.val < 0)) (formatNat i.val.natAbs) true) = .ok (some i) := by
  obtain ⟨v, hv⟩ := i
  have key : (if decide (v < 0) = true then -(digitsValue (formatNat v.natAbs) : Int)
      else (digitsValue (formatNat v.natAbs) : Int)) = v := by
    rw [digitsValue_formatNat]
    by_cases h : v < 0
    · rw [if_pos (by simpa using h)]; omega
    · rw [if_neg (by simpa using h)]; omega
  simp only [decodeInt, if_true]
  simp only [key]
  simp [hv]

theorem hexVal_hexDigit : ∀ d, d < 16 → hexVal (hexDigit d) = some d := by decide

theorem unescapeU_escape (c : Char) (h : c.toNat < 64) (tail : List Char) :
    unescapeU ('0' :: '0' :: hexDigit (c.toNat / 16) :: hexDigit (c.toNat % 16) :: tail)
      = some (c, tail) := by
  have h1 := hexVal_hexDigit (c.toNat / 16) (by omega)
  have h2 := hexVal_hexDigit (c.toNat % 16) (by omega)
  have h0 : hexVal '0' = some 0 := by decide
  have hv : ((0 * 16 + 0) * 16 + c.toNat / 16) * 16 + c.toNat % 16 = c.toNat := by omega
  simp only [unescapeU, hex4, h0, h1, h2, hv]
  rw [if_neg (by omega)]
  simp [Char.ofNat_toNat]

theorem char_eq_of_toNat {c : Char} {n : Nat} (h : c.toNat = n) : c = Char.ofNat n := by
  rw [← h, Char.ofNat_toNat]

theorem scanString_encodeChar (fuel : Nat) (c : Char) (tail acc : List Char) :
    scanString (fuel + 1) (encodeChar c ++ tail) acc = scanString fuel tail (acc ++ [c]) := by
  rw [encodeChar]
  by_cases h1 : c = '"'
  · subst h1; simp [scanString, unescapeChar]
  rw [if_neg h1]
  by_cases h2 : c = '\\'
  · subst h2; simp [scanString, unescapeChar]
  rw [if_neg h2]
  by_cases h3 : c = '\n'
  · subst h3; simp [scanString, unescapeChar]
  rw [if_neg h3]
  by_cases h4 : c = '\r'
  · subst h4; simp [scanString, unescapeChar]
  rw [if_neg h4]
  by_cases h5 : c = '\t'
  · subst h5; simp [scanString, unescapeChar]
  rw [if_neg h5]
  by_cases h6 : c.toNat = 8
  · have := char_eq_of_toNat h6; subst this; simp [scanString, unescapeChar]
  rw [if_neg h6]
  by_cases h7 : c.toNat = 12
  · have := char_eq_of_toNat h7; subst this; simp [scanString, unescapeChar]
  rw [if_neg h7]
  by_cases h8 : c.toNat < 32
  · have := unescapeU_escape c (by omega) tail
    rw [if_pos h8]
    simp [scanString, escapeU00, this]
  rw [if_neg h8]
  by_cases h9 : c = '<' ∨ c = '>' ∨ c = '&'
  · have hlt : c.toNat < 64 := by
      rcases h9 with rfl | rfl | rfl <;> decide
    have := unescapeU_escape c hlt tail
    rw [if_pos h9]
    simp [scanString, escapeU00, this]
  rw [if_neg h9]
  by_cases h10 : c.toNat = 0x2028
  · have := char_eq_of_toNat h10; subst this
    rw [if_pos (by decide)]
    simp [scanString, unescapeU, hex4, hexVal]
  rw [if_neg h10]
  by_cases h11 : c.toNat = 0x2029
  · have := char_eq_of_toNat h11; subst this
    rw [if_pos (by decide)]
    simp [scanString, unescapeU, hex4, hexVal]
  rw [if_neg h11]
  simp [scanString, h1, h2, h8]

theorem scanString_encodeChars : ∀ (s : List Char) (fuel : Nat) (acc rest : List Char),
    s.length < fuel →
    scanString fuel (encodeChars s ++ '"' :: rest) acc = some (String.mk (acc ++ s), rest) := by
  intro s
  induction s with
  | nil =>
    intro fuel acc rest h
    obtain ⟨f, rfl⟩ : ∃ f, fuel = f + 1 := ⟨fuel - 1, by simp at h; omega⟩
    simp [encodeChars, scanString]
  | cons c s ih =>
    intro fuel acc rest h
    obtain ⟨f, rfl⟩ : ∃ f, fuel = f + 1 := ⟨fuel - 1, by simp at h; omega⟩
    simp only [encodeChars, List.append_assoc]
    rw [scanString_encodeChar, ih f _ _ (by simp at h; omega)]
    simp

theorem one_le_length_ite {p : Prop} [Decidable p] {a b : List Char}
    (ha : 1 ≤ a.length) (hb : 1 ≤ b.length) : 1 ≤ (if p then a else b).length := by
  split <;> assumption

theorem encodeChar_length (c : Char) : 1 ≤ (encodeChar c).length := by
  rw [encodeChar]
  repeat' apply one_le_length_ite
  all_goals simp [escapeU00]

theorem length_le_encodeChars (s : List Char) : s.length ≤ (encodeChars s).length := by
  induction s with
  | nil => simp [encodeChars]
  | cons c s ih =>
    have := encodeChar_length c
    simp only [encodeChars, List.length_cons, List.length_append]
    omega

theorem skipSpace_cons_of_not {c : Char} (h : isSpace c = false) (cs : List Char) :
    skipSpace (c :: cs) = c :: cs := by
  simp [skipSpace, h]

theorem parseValue_string (fuel : Nat) (s rest : List Char) :
    parseValue (fuel + 1) ('"' :: (encodeChars s ++ '"' :: rest))
      = some (JVal.str (String.mk s), rest) := by
  have hlen : s.length < (encodeChars s ++ '"' :: rest).length + 1 := by
    have := length_le_encodeChars s
    simp only [List.length_append, List.length_cons]
    omega
  rw [parseValue, skipSpace_cons_of_not (by decide)]
  simp only [if_neg (show ¬ ('"' = '{') by decide), if_neg (show ¬ ('"' = '[') by decide),
    if_true]
  rw [scanString_encodeChars s _ [] rest hlen]
  simp

theorem parseValue_int (fuel : Nat) (i : Int) (c : Char) (rest : List Char) (hc : isDelim c) :
    parseValue (fuel + 1) (formatInt i ++ c :: rest)
      = some (JVal.num (decide (i < 0)) (formatNat i.natAbs) true, c :: rest) := by
  have hn := scanNumber_formatInt i c rest hc
  obtain ⟨d, ds, he, hd, -⟩ := formatNat_head i.natAbs
  have hhead : ∃ x xs, formatInt i ++ c :: rest = x :: xs ∧ (x = '-' ∨ isDigit x = true) := by
    by_cases hneg : i < 0
    · exact ⟨'-', formatNat i.natAbs ++ c :: rest, by simp [formatInt, hneg], Or.inl rfl⟩
    · exact ⟨d, ds ++ c :: rest, by simp [formatInt, hneg, he], Or.inr hd⟩
  obtain ⟨x, xs, hx, hxd⟩ := hhead
  rw [hx] at hn ⊢
  have hsp : isSpace x = false := by
    rcases hxd with rfl | h
    · decide
    · simp [isDigit] at h; simp [isSpace]; omega
  have hne : ∀ y : Char, y.toNat < 45 ∨ 57 < y.toNat → x ≠ y := by
    intro y hy hxy
    subst hxy
    rcases hxd with rfl | h
    · revert hy; decide
    · simp [isDigit] at h; omega
  rw [parseValue, skipSpace_cons_of_not hsp]
  simp only [if_neg (hne '{' (by decide)), if_neg (hne '[' (by decide)),
    if_neg (hne '"' (by decide)), if_neg (hne 't' (by decide)), if_neg (hne 'f' (by decide)),
    if_neg (hne 'n' (by decide))]
  exact hn

theorem parseMembers_last (fuel : Nat) (k tail r : List Char) (v : JVal)
    (hv : parseValue fuel tail = some (v, '}' :: r)) :
    parseMembers (fuel + 1) ('"' :: (encodeChars k ++ '"' :: ':' :: tail))
      = some ([(String.mk k, v)], r) := by
  have hlen : k.length < (encodeChars k ++ '"' :: ':' :: tail).length + 1 := by
    have := length_le_encodeChars k
    simp only [List.length_append, List.length_cons]
    omega
  rw [parseMembers, skipSpace_cons_of_not (by decide)]
  simp only [if_true]
  rw [scanString_encodeChars k _ [] (':' :: tail) hlen]
  simp only [List.nil_append]
  rw [skipSpace_cons_of_not (by decide)]
  simp only [if_true, hv]
  rw [skipSpace_cons_of_not (by decide)]
  simp

theorem parseMembers_more (fuel : Nat) (k tail r r5 : List Char) (v : JVal)
    (ms : List (String × JVal))
    (hv : parseValue fuel tail = some (v, ',' :: r))
    (hms : parseMembers fuel r = some (ms, r5)) :
    parseMembers (fuel + 1) ('"' :: (encodeChars k ++ '"' :: ':' :: tail))
      = some ((String.mk k, v) :: ms, r5) := by
  have hlen : k.length < (encodeChars k ++ '"' :: ':' :: tail).length + 1 := by
    have := length_le_encodeChars k
    simp only [List.length_append, List.length_cons]
    omega
  rw [parseMembers, skipSpace_cons_of_not (by decide)]
  simp only [if_true]
  rw [scanString_encodeChars k _ [] (':' :: tail) hlen]
  simp only [List.nil_append]
  rw [skipSpace_cons_of_not (by decide)]
  simp only [if_true, hv]
  rw [skipSpace_cons_of_not (by decide)]
  simp [hms]

theorem parseValue_object (fuel : Nat) (tail r : List Char) (ms : List (String × JVal))
    (hms : parseMembers fuel ('"' :: tail) = some (ms, r)) :
    parseValue (fuel + 1) ('{' :: '"' :: tail) = some (JVal.obj ms, r) := by
  rw [parseValue, skipSpace_cons_of_not (by decide)]
  simp only [if_true]
  rw [skipSpace_cons_of_not (by decide)]
  simp [hms]

theorem parseJSON_marshalRefreshToken (t : RefreshToken) :
    parseJSON (marshalRefreshToken t)
      = some (JVal.obj [("user_id", JVal.num (decide (t.UserID.val < 0))
            (formatNat t.UserID.val.natAbs) true),
          ("role", JVal.str t.Role)]) := by
  obtain ⟨f, hf⟩ : ∃ f, (marshalRefreshToken t).length + 1 = f + 4 := by
    refine ⟨(marshalRefreshToken t).length - 3, ?_⟩
    simp [marshalRefreshToken, String.length, encodeString]
  have h1 := parseValue_string f t.Role.data ['}']
  have h2 := parseMembers_last (f + 1) "role".data _ _ _ h1
  have h3 := parseValue_int (f + 1) t.UserID.val ','
    ('"' :: (encodeChars "role".data ++ '"' :: ':' :: '"' ::
      (encodeChars t.Role.data ++ ['"', '}']))) (Or.inl rfl)
  have h4 := parseMembers_more (f + 2) "user_id".data _ _ _ _ _ h3 h2
  have h5 := parseValue_object (f + 3) _ _ _ h4
  have e1 : encodeChars "role".data = "role".data := by decide
  have e2 : encodeChars "user_id".data = "user_id".data := by decide
  rw [e1, e2] at h5
  rw [parseJSON, hf]
  simp only [marshalRefreshToken, encodeString]
  simp only [List.cons_append, List.append_assoc, List.nil_append] at h5 ⊢
  rw [h5]
  simp [skipSpace]

theorem parseJSON_marshalConfirmCode (c : ConfirmCode) :
    parseJSON (marshalConfirmCode c)
      = some (JVal.obj [("user_id", JVal.num (decide (c.UserID.val < 0))
            (formatNat c.UserID.val.natAbs) true),
          ("name", JVal.str c.Name),
          ("code", JVal.num (decide (c.Code.val < 0)) (formatNat c.Code.val.natAbs) true)]) := by
  obtain ⟨f, hf⟩ : ∃ f, (marshalConfirmCode c).length + 1 = f + 5 := by
    refine ⟨(marshalConfirmCode c).length - 4, ?_⟩
    simp [marshalConfirmCode, String.length, encodeString]
  have h1 := parseValue_int f c.Code.val '}' [] (Or.inr rfl)
  have h2 := parseMembers_last (f + 1) "code".data _ _ _ h1
  have h3 := parseValue_string (f + 1) c.Name.data
    (',' :: '"' :: (encodeChars "code".data ++ '"' :: ':' :: (formatInt c.Code.val ++ ['}'])))
  have h4 := parseMembers_more (f + 2) "name".data _ _ _ _ _ h3 h2
  have h5 := parseValue_int (f + 2) c.UserID.val ','
    ('"' :: (encodeChars "name".data ++ '"' :: ':' :: '"' :: (encodeChars c.Name.data ++ '"' ::
      ',' :: '"' :: (encodeChars "code".data ++ '"' :: ':' :: (formatInt c.Code.val ++ ['}'])))))
    (Or.inl rfl)
  have h6 := parseMembers_more (f + 3) "user_id".data _ _ _ _ _ h5 h4
  have h7 := parseValue_object (f + 4) _ _ _ h6
  have e1 : encodeChars "code".data = "code".data := by decide
  have e2 : encodeChars "name".data = "name".data := by decide
  have e3 : encodeChars "user_id".data = "user_id".data := by decide
  rw [e1, e2, e3] at h7
  rw [parseJSON, hf]
  simp only [marshalConfirmCode, encodeString]
  simp only [List.cons_append, List.append_assoc, List.nil_append] at h7 ⊢
  rw [h7]
  simp [skipSpace]

theorem unmarshal_marshalRefreshToken (t : RefreshToken) :
    unmarshalRefreshToken (marshalRefreshToken t) = .ok t := by
  have hm1 : fieldMatches "user_id" "user_id" = true := by decide
  have hm2 : fieldMatches "role" "user_id" = false := by decide
  have hm3 : fieldMatches "role" "role" = true := by decide
  simp [unmarshalRefreshToken, parseJSON_marshalRefreshToken, fillRefreshToken, hm1, hm2, hm3,
    decodeInt_format, decodeString]

theorem fill_marshalConfirmCode (c : ConfirmCode) :
    fillConfirmCode [("user_id", JVal.num (decide (c.UserID.val < 0))
            (formatNat c.UserID.val.natAbs) true),
          ("name", JVal.str c.Name),
          ("code", JVal.num (decide (c.Code.val < 0)) (formatNat c.Code.val.natAbs) true)]
        zeroConfirmCode = .ok c := by
  have hm1 : fieldMatches "user_id" "user_id" = true := by decide
  have hm2 : fieldMatches "name" "user_id" = false := by decide
  have hm3 : fieldMatches "name" "name" = true := by decide
  have hm4 : fieldMatches "code" "user_id" = false := by decide
  have hm5 : fieldMatches "code" "name" = false := by decide
  have hm6 : fieldMatches "code" "code" = true := by decide
  simp [fillConfirmCode, hm1, hm2, hm3, hm4, hm5, hm6, decodeInt_format, decodeString]

theorem unmarshal_marshalConfirmCode (c : ConfirmCode) :
    unmarshalConfirmCode (marshalConfirmCode c) = .ok c := by
  simp [unmarshalConfirmCode, parseJSON_marshalConfirmCode, fill_marshalConfirmCode]

theorem unmarshalPtr_marshalConfirmCode (c : ConfirmCode) :
    unmarshalConfirmCodePtr (marshalConfirmCode c) = .ok (some c) := by
  simp [unmarshalConfirmCodePtr, parseJSON_marshalConfirmCode, fill_marshalConfirmCode]

/-! ## Lemmas on keys and on the Redis model -/

theorem Sprintf_refreshTokenPattern (t : String) :
    Sprintf refreshTokenPattern t = "refresh_token:" ++ t := by
  apply String.ext
  simp [Sprintf, refreshTokenPattern, sprintfAux]

theorem Sprintf_confirmTokenPattern (e : String) :
    Sprintf confirmTokenPattern e = "confirm_token:" ++ e := by
  apply String.ext
  simp [Sprintf, confirmTokenPattern, sprintfAux]

theorem refreshKey_ne_confirmKey (t e : String) :
    Sprintf refreshTokenPattern t ≠ Sprintf confirmTokenPattern e := by
  rw [Sprintf_refreshTokenPattern, Sprintf_confirmTokenPattern]
  intro h
  have := congrArg String.data h
  simp at this

theorem find_filter_ne (db : Rdb) (key key2 : String) (h : key2 ≠ key) :
    List.find? (fun en : Entry => decide (en.key = key2))
        (List.filter (fun en => decide (en.key ≠ key)) db)
      = List.find? (fun en => decide (en.key = key2)) db := by
  rw [List.find?_filter]
  congr 1
  funext a
  by_cases hk : a.key = key2
  · simp [hk, h]
  · simp [hk]

theorem find_filter_same (db : Rdb) (key : String) :
    List.find? (fun en : Entry => decide (en.key = key))
        (List.filter (fun en => decide (en.key ≠ key)) db) = none := by
  rw [List.find?_filter, List.find?_eq_none]
  intro a _
  simp

theorem Rdb.Get_Set_same (db : Rdb) (key value : String) (ex : Int) :
    Rdb.Get (Rdb.Set db none key value ex).1 none key = GetResult.value value := by
  simp [Rdb.Get, Rdb.Set]

theorem Rdb.Get_Set_of_ne (db : Rdb) (sf gf : Option GoError) (key key2 value : String)
    (ex : Int) (h : key2 ≠ key) :
    Rdb.Get (Rdb.Set db sf key value ex).1 gf key2 = Rdb.Get db gf key2 := by
  cases sf with
  | some e => simp [Rdb.Set]
  | none =>
    cases gf with
    | some e => simp [Rdb.Get]
    | none =>
      have h1 : decide (key = key2) = false := by simp [Ne.symm h]
      simp only [Rdb.Get, Rdb.Set, List.find?_cons, h1, find_filter_ne db key key2 h]

theorem Rdb.Get_Del_same (db : Rdb) (key : String) :
    Rdb.Get (Rdb.Del db none key).1 none key = GetResult.Nil := by
  simp only [Rdb.Get, Rdb.Del, find_filter_same]

theorem Rdb.Get_expire_same (db : Rdb) (key : String) :
    Rdb.Get (Rdb.expire db key) none key = GetResult.Nil := by
  simp only [Rdb.Get, Rdb.expire, find_filter_same]

theorem Rdb.Get_Del_of_ne (db : Rdb) (df gf : Option GoError) (key key2 : String)
    (h : key2 ≠ key) :
    Rdb.Get (Rdb.Del db df key).1 gf key2 = Rdb.Get db gf key2 := by
  cases df with
  | some e => simp [Rdb.Del]
  | none =>
    cases gf with
    | some e => simp [Rdb.Get]
    | none => simp only [Rdb.Get, Rdb.Del, find_filter_ne db key key2 h]

theorem Rdb.entriesAt_Set (db : Rdb) (key value : String) (ex : Int) :
    Rdb.entriesAt (Rdb.Set db none key value ex).1 key = [⟨key, value, ex⟩] := by
  simp [Rdb.entriesAt, Rdb.Set, List.filter_cons]

theorem Rdb.entriesAt_Set_of_ne (db : Rdb) (sf : Option GoError) (key key2 value : String)
    (ex : Int) (h : key2 ≠ key) :
    Rdb.entriesAt (Rdb.Set db sf key value ex).1 key2 = Rdb.entriesAt db key2 := by
  cases sf with
  | some e => simp [Rdb.Set]
  | none =>
    simp only [Rdb.entriesAt, Rdb.Set, List.filter_cons]
    have h1 : decide (key = key2) = false := by simp [Ne.symm h]
    simp only [h1, List.filter_filter]
    apply List.filter_congr
    intro en _
    by_cases hk : en.key = key2
    · simp [hk, h]
    · simp [hk]

/-! ## Store lemmas -/

theorem SaveRefreshToken_ok (db : Rdb) (u : I64) (r t : String) (ex : Int) :
    Store.SaveRefreshToken db none u r t ex
      = ((db.Set none (Sprintf refreshTokenPattern t) (marshalRefreshToken ⟨u, r⟩) ex).1, none) := by
  simp [Store.SaveRefreshToken, jsonMarshalRefreshToken, Rdb.Set]

theorem SaveRefreshToken_failed (db : Rdb) (err : GoError) (u : I64) (r t : String)
    (ex : Int) :
    Store.SaveRefreshToken db (some err) u r t ex
      = (db, some (GoError.InternalWithoutStackTrace
          (GoError.wrapf "failed to save refresh token: " err))) := by
  simp [Store.SaveRefreshToken, jsonMarshalRefreshToken, Rdb.Set]

theorem ValidateRefreshToken_of_value (db : Rdb) (t p : String) (r : RefreshToken)
    (h : db.Get none (Sprintf refreshTokenPattern t) = GetResult.value p)
    (hp : unmarshalRefreshToken p = .ok r) :
    Store.ValidateRefreshToken db none t = .ok r := by
  simp [Store.ValidateRefreshToken, h, hp]

theorem ValidateConfirmCode_of_value (db : Rdb) (e p : String) (c : ConfirmCode)
    (h : db.Get none (Sprintf confirmTokenPattern e) = GetResult.value p)
    (hp : unmarshalConfirmCode p = .ok c) :
    Store.ValidateConfirmCode db none e = .ok c := by
  simp [Store.ValidateConfirmCode, h, hp]

theorem ValidateConfirmCode_Set (db : Rdb) (e : String) (c : ConfirmCode) (ex : Int) :
    Store.ValidateConfirmCode
        (db.Set none (Sprintf confirmTokenPattern e) (marshalConfirmCode c) ex).1 none e
      = .ok c := by
  exact ValidateConfirmCode_of_value _ _ _ _ (Rdb.Get_Set_same _ _ _ _)
    (unmarshal_marshalConfirmCode c)

theorem ValidateRefreshToken_Set (db : Rdb) (t : String) (r : RefreshToken) (ex : Int) :
    Store.ValidateRefreshToken
        (db.Set none (Sprintf refreshTokenPattern t) (marshalRefreshToken r) ex).1 none t
      = .ok r := by
  exact ValidateRefreshToken_of_value _ _ _ _ (Rdb.Get_Set_same _ _ _ _)
    (unmarshal_marshalRefreshToken r)

theorem SaveConfirmCode_of_Nil (db : Rdb) (u : I64) (e n : String) (c : I64)
    (h : db.Get none (Sprintf confirmTokenPattern e) = GetResult.Nil) :
    Store.SaveConfirmCode db none none u e n c
      = ((db.Set none (Sprintf confirmTokenPattern e) (marshalConfirmCode ⟨u, n, c⟩)
          confirmCodeTimeLive).1, Outcome.ok ()) := by
  simp [Store.SaveConfirmCode, h, jsonMarshalConfirmCode, Rdb.Set]

theorem SaveConfirmCode_of_value (db : Rdb) (u : I64) (e n p : String) (c : I64)
    (r0 : ConfirmCode)
    (h : db.Get none (Sprintf confirmTokenPattern e) = GetResult.value p)
    (hp : unmarshalConfirmCodePtr p = .ok (some r0)) :
    Store.SaveConfirmCode db none none u e n c
      = ((db.Set none (Sprintf confirmTokenPattern e)
          (marshalConfirmCode ⟨r0.UserID, r0.Name, c⟩) confirmCodeTimeLive).1, Outcome.ok ()) := by
  simp [Store.SaveConfirmCode, h, hp, jsonMarshalConfirmCode, Rdb.Set]

/-- Whatever `SaveConfirmCode` does, the database afterwards is the old one or the old one
with the confirmation key of the email set. -/
theorem SaveConfirmCode_rdb (db : Rdb) (gf sf : Option GoError) (u : I64) (e n : String)
    (c : I64) :
    (Store.SaveConfirmCode db gf sf u e n c).1 = db ∨
    ∃ v, (Store.SaveConfirmCode db gf sf u e n c).1
      = (db.Set none (Sprintf confirmTokenPattern e) v confirmCodeTimeLive).1 := by
  unfold Store.SaveConfirmCode
  simp only [jsonMarshalConfirmCode]
  cases hg : db.Get gf (Sprintf confirmTokenPattern e) with
  | Nil =>
    cases sf with
    | none => exact Or.inr ⟨_, rfl⟩
    | some err => exact Or.inl rfl
  | failed err => exact Or.inl rfl
  | value p =>
    simp only []
    cases hu : unmarshalConfirmCodePtr p with
    | error err => exact Or.inl rfl
    | ok o =>
      cases o with
      | none => exact Or.inl rfl
      | some r0 =>
        cases sf with
        | none => exact Or.inr ⟨_, rfl⟩
        | some err => exact Or.inl rfl

theorem Get_confirmDb (e : String) (c : ConfirmCode) :
    Rdb.Get (confirmDb e c) none (Sprintf confirmTokenPattern e)
      = GetResult.value (marshalConfirmCode c) := by
  simp [confirmDb, Rdb.Get]

theorem Get_refreshDb (t : String) (r : RefreshToken) (ex : Int) :
    Rdb.Get (refreshDb t r ex) none (Sprintf refreshTokenPattern t)
      = GetResult.value (marshalRefreshToken r) := by
  simp [refreshDb, Rdb.Get]

theorem ValidateConfirmCode_confirmDb (e : String) (c : ConfirmCode) :
    Store.ValidateConfirmCode (confirmDb e c) none e = .ok c :=
  ValidateConfirmCode_of_value _ _ _ _ (Get_confirmDb e c) (unmarshal_marshalConfirmCode c)

theorem ValidateRefreshToken_refreshDb (t : String) (r : RefreshToken) (ex : Int) :
    Store.ValidateRefreshToken (refreshDb t r ex) none t = .ok r :=
  ValidateRefreshToken_of_value _ _ _ _ (Get_refreshDb t r ex) (unmarshal_marshalRefreshToken r)

theorem message_ne (a b : String) :
    "invalid or expired " ++ a ≠ "failed to validate " ++ b := by
  intro h
  have := congrArg String.data h
  simp at this

/-- A `SaveConfirmCode` call that returns no error has written a record with the new code. -/
theorem SaveConfirmCode_ok_inv (db : Rdb) (gf sf : Option GoError) (u : I64) (e n : String)
    (c : I64) (h : (Store.SaveConfirmCode db gf sf u e n c).2 = Outcome.ok ()) :
    gf = none ∧ sf = none ∧
    ∃ r : ConfirmCode, r.Code = c ∧
      (Store.SaveConfirmCode db gf sf u e n c).1
        = (db.Set none (Sprintf confirmTokenPattern e) (marshalConfirmCode r)
            confirmCodeTimeLive).1 := by
  cases gf with
  | some err => simp [Store.SaveConfirmCode, Rdb.Get] at h
  | none =>
    cases sf with
    | some err =>
      exfalso
      revert h
      unfold Store.SaveConfirmCode
      simp only [jsonMarshalConfirmCode, Rdb.Set]
      cases db.Get none (Sprintf confirmTokenPattern e) with
      | Nil => simp
      | failed err2 => simp
      | value p =>
        simp only []
        cases unmarshalConfirmCodePtr p with
        | error err2 => simp
        | ok o => cases o <;> simp
    | none =>
      refine ⟨rfl, rfl, ?_⟩
      cases hg : db.Get none (Sprintf confirmTokenPattern e) with
      | Nil => exact ⟨_, rfl, by rw [SaveConfirmCode_of_Nil db u e n c hg]⟩
      | failed err2 => simp [Store.SaveConfirmCode, hg] at h
      | value p =>
        cases hu : unmarshalConfirmCodePtr p with
        | error err2 => simp [Store.SaveConfirmCode, hg, hu] at h
        | ok o =>
          cases o with
          | none => simp [Store.SaveConfirmCode, hg, hu] at h
          | some r0 =>
            exact ⟨⟨r0.UserID, r0.Name, c⟩, rfl,
              by rw [SaveConfirmCode_of_value db u e n p c r0 hg hu]⟩

/-! ## Lemmas on the service -/

theorem ValidateRefreshToken_congr (db db2 : Rdb) (gf : Option GoError) (t : String)
    (h : db2.Get gf (Sprintf refreshTokenPattern t) = db.Get gf (Sprintf refreshTokenPattern t)) :
    Store.ValidateRefreshToken db2 gf t = Store.ValidateRefreshToken db gf t := by
  simp only [Store.ValidateRefreshToken, h]

theorem ValidateConfirmCode_congr (db db2 : Rdb) (gf : Option GoError) (e : String)
    (h : db2.Get gf (Sprintf confirmTokenPattern e) = db.Get gf (Sprintf confirmTokenPattern e)) :
    Store.ValidateConfirmCode db2 gf e = Store.ValidateConfirmCode db gf e := by
  simp only [Store.ValidateConfirmCode, h]

theorem SaveRefreshToken_rdb (db : Rdb) (sf : Option GoError) (u : I64) (r t : String)
    (ex : Int) :
    (Store.SaveRefreshToken db sf u r t ex).1
      = (db.Set sf (Sprintf refreshTokenPattern t) (marshalRefreshToken ⟨u, r⟩) ex).1 := by
  cases sf <;> simp [Store.SaveRefreshToken, jsonMarshalRefreshToken, Rdb.Set]

theorem SaveConfirmCode_Get_refresh (db : Rdb) (gf sf gf2 : Option GoError) (u : I64)
    (e n : String) (c : I64) (t : String) :
    Rdb.Get (Store.SaveConfirmCode db gf sf u e n c).1 gf2 (Sprintf refreshTokenPattern t)
      = Rdb.Get db gf2 (Sprintf refreshTokenPattern t) := by
  rcases SaveConfirmCode_rdb db gf sf u e n c with h | ⟨v, h⟩
  · rw [h]
  · rw [h, Rdb.Get_Set_of_ne _ _ _ _ _ _ _ (refreshKey_ne_confirmKey t e)]

theorem SaveConfirmCode_no_panic (db : Rdb) (gf sf : Option GoError) (u : I64) (e n : String)
    (c : I64) (h : confirmSlotNull db e = false) (m : String) :
    (Store.SaveConfirmCode db gf sf u e n c).2 ≠ Outcome.panic m := by
  unfold Store.SaveConfirmCode
  simp only [jsonMarshalConfirmCode]
  cases gf with
  | some err => simp [Rdb.Get]
  | none =>
    unfold confirmSlotNull at h
    cases hg : db.Get none (Sprintf confirmTokenPattern e) with
    | Nil => cases sf <;> simp [Rdb.Set]
    | failed err => simp
    | value p =>
      simp only [hg] at h
      simp only []
      cases hu : unmarshalConfirmCodePtr p with
      | error err => simp
      | ok o =>
        cases o with
        | none => simp [hu] at h
        | some r0 => cases sf <;> simp [Rdb.Set]

theorem CreateEmailConfirmation_rdb (db : Rdb) (d : Deps) (u : I64) (e n : String) :
    (Service.CreateEmailConfirmation db d u e n).rdb
      = (Store.SaveConfirmCode db (d.rdbFault RdbCall.SaveConfirmCode_Get)
          (d.rdbFault RdbCall.SaveConfirmCode_Set) u e n d.GenerateCode).1 := by
  unfold Service.CreateEmailConfirmation
  simp only []
  split
  · next h => rw [h]
  · next h => rw [h]
  · next h => rw [h]; split <;> rfl

theorem CreateEmailConfirmation_panic (db : Rdb) (d : Deps) (u : I64) (e n m : String)
    (h : (Service.CreateEmailConfirmation db d u e n).result = Outcome.panic m) :
    (Store.SaveConfirmCode db (d.rdbFault RdbCall.SaveConfirmCode_Get)
          (d.rdbFault RdbCall.SaveConfirmCode_Set) u e n d.GenerateCode).2 = Outcome.panic m := by
  unfold Service.CreateEmailConfirmation at h
  simp only [] at h
  split at h
  · next h2 => rw [h2]; simpa using h
  · next h2 => simp at h
  · next h2 => split at h <;> simp at h

theorem confirmSlotNull_Set_refresh (db : Rdb) (sf : Option GoError) (t v e : String)
    (ex : Int) :
    confirmSlotNull (db.Set sf (Sprintf refreshTokenPattern t) v ex).1 e
      = confirmSlotNull db e := by
  unfold confirmSlotNull
  rw [Rdb.Get_Set_of_ne _ _ _ _ _ _ _ (Ne.symm (refreshKey_ne_confirmKey t e))]

/-- The run of `Register` once the provider, the issuer and the refresh-token write succeed,
when the confirmation slot does not make `SaveConfirmCode` panic. -/
theorem Register_of_session (db : Rdb) (d : Deps) (req : CreateUserRequest) (user : User)
    (acc rt : String)
    (hcu : d.CreateUser req = .ok user)
    (hat : d.GenerateToken user.Id user.Role = .ok acc)
    (hrt : d.GenerateRefreshToken = .ok rt)
    (hset : d.rdbFault RdbCall.SaveRefreshToken_Set = none)
    (hslot : confirmSlotNull db user.Email = false) :
    (Service.Register db d req).result
      = Outcome.ok { AccessToken := acc, RefreshToken := rt, User := user } ∧
    (Service.Register db d req).rdb
      = (Store.SaveConfirmCode
          (db.Set none (Sprintf refreshTokenPattern rt)
            (marshalRefreshToken ⟨user.Id, user.Role⟩) d.GetRefreshExpiration).1
          (d.rdbFault RdbCall.SaveConfirmCode_Get) (d.rdbFault RdbCall.SaveConfirmCode_Set)
          user.Id user.Email user.FullName d.GenerateCode).1 := by
  have hnp : ∀ m, (Service.CreateEmailConfirmation
      (db.Set none (Sprintf refreshTokenPattern rt)
        (marshalRefreshToken ⟨user.Id, user.Role⟩) d.GetRefreshExpiration).1
      d user.Id user.Email user.FullName).result ≠ Outcome.panic m := by
    intro m hm
    exact SaveConfirmCode_no_panic _ _ _ _ _ _ _
      (by rw [confirmSlotNull_Set_refresh]; exact hslot) m
      (CreateEmailConfirmation_panic _ _ _ _ _ _ hm)
  unfold Service.Register
  simp only [hcu, hat, hrt, hset, SaveRefreshToken_ok]
  exact ⟨trivial, CreateEmailConfirmation_rdb _ _ _ _ _⟩

theorem Register_of_write_failure (db : Rdb) (d : Deps) (req : CreateUserRequest)
    (user : User)
    (acc rt : String) (err : GoError)
    (hcu : d.CreateUser req = .ok user)
    (hat : d.GenerateToken user.Id user.Role = .ok acc)
    (hrt : d.GenerateRefreshToken = .ok rt)
    (hset : d.rdbFault RdbCall.SaveRefreshToken_Set = some err) :
    (Service.Register db d req).result
      = Outcome.error (GoError.Internal (GoError.InternalWithoutStackTrace
          (GoError.wrapf "failed to save refresh token: " err))) ∧
    (Service.Register db d req).rdb = db := by
  unfold Service.Register
  simp [hcu, hat, hrt, hset, SaveRefreshToken_failed]

theorem Register_ok_inv (db : Rdb) (d : Deps) (req : CreateUserRequest)
    (resp : RegisterResponse)
    (h : (Service.Register db d req).result = Outcome.ok resp) :
    ∃ user acc rt, d.CreateUser req = .ok user ∧
      d.GenerateToken user.Id user.Role = .ok acc ∧
      d.GenerateRefreshToken = .ok rt ∧
      d.rdbFault RdbCall.SaveRefreshToken_Set = none ∧
      resp = { AccessToken := acc, RefreshToken := rt, User := user } := by
  unfold Service.Register at h
  cases hcu : d.CreateUser req with
  | error err => simp [hcu] at h
  | ok user =>
    cases hat : d.GenerateToken user.Id user.Role with
    | error err => simp [hcu, hat] at h
    | ok acc =>
      cases hrt : d.GenerateRefreshToken with
      | error err => simp [hcu, hat, hrt] at h
      | ok rt =>
        cases hset : d.rdbFault RdbCall.SaveRefreshToken_Set with
        | some err => simp [hcu, hat, hrt, hset, SaveRefreshToken_failed] at h
        | none =>
          refine ⟨user, acc, rt, rfl, hat, rfl, rfl, ?_⟩
          simp only [hcu, hat, hrt, hset, SaveRefreshToken_ok] at h
          split at h
          · simp at h
          · simpa using h.symm

/-- The database `Register` leaves when every step and every backend command succeeds. -/
theorem Register_rdb_of_success (db : Rdb) (d : Deps) (req : CreateUserRequest) (user : User)
    (acc rt : String)
    (hcu : d.CreateUser req = .ok user)
    (hat : d.GenerateToken user.Id user.Role = .ok acc)
    (hrt : d.GenerateRefreshToken = .ok rt)
    (hfault : ∀ c, d.rdbFault c = none)
    (r0 : ConfirmCode)
    (hprior : db.Get none (Sprintf confirmTokenPattern user.Email) = GetResult.Nil ∧
        r0 = ⟨user.Id, user.FullName, d.GenerateCode⟩ ∨
      ∃ p r1, db.Get none (Sprintf confirmTokenPattern user.Email) = GetResult.value p ∧
        unmarshalConfirmCodePtr p = .ok (some r1) ∧
        r0 = ⟨r1.UserID, r1.Name, d.GenerateCode⟩) :
    (Service.Register db d req).result
      = Outcome.ok { AccessToken := acc, RefreshToken := rt, User := user } ∧
    (Service.Register db d req).rdb
      = ((db.Set none (Sprintf refreshTokenPattern rt)
            (marshalRefreshToken ⟨user.Id, user.Role⟩) d.GetRefreshExpiration).1.Set none
          (Sprintf confirmTokenPattern user.Email) (marshalConfirmCode r0)
          confirmCodeTimeLive).1 := by
  have hne := Ne.symm (refreshKey_ne_confirmKey rt user.Email)
  have hslot : confirmSlotNull db user.Email = false := by
    unfold confirmSlotNull
    rcases hprior with ⟨h, -⟩ | ⟨p, r1, h, hp, -⟩
    · rw [h]
    · rw [h]; simp [hp]
  obtain ⟨hres, hdb⟩ := Register_of_session db d req user acc rt hcu hat hrt (hfault _) hslot
  refine ⟨hres, ?_⟩
  rw [hdb, hfault, hfault]
  rcases hprior with ⟨h, rfl⟩ | ⟨p, r1, h, hp, rfl⟩
  · rw [SaveConfirmCode_of_Nil _ _ _ _ _ (by rw [Rdb.Get_Set_of_ne _ _ _ _ _ _ _ hne]; exact h)]
  · rw [SaveConfirmCode_of_value _ _ _ _ p _ r1
      (by rw [Rdb.Get_Set_of_ne _ _ _ _ _ _ _ hne]; exact h) hp]

/-- What the two keys hold once a refresh-token record and then a confirmation record are
written. -/
theorem entries_after_both_writes (db : Rdb) (rt e : String) (r : RefreshToken) (ex : Int)
    (c : ConfirmCode) :
    Rdb.entriesAt ((db.Set none (Sprintf refreshTokenPattern rt) (marshalRefreshToken r) ex).1.Set
        none (Sprintf confirmTokenPattern e) (marshalConfirmCode c) confirmCodeTimeLive).1
        (Sprintf refreshTokenPattern rt)
      = [⟨Sprintf refreshTokenPattern rt, marshalRefreshToken r, ex⟩] ∧
    Store.ValidateRefreshToken
        ((db.Set none (Sprintf refreshTokenPattern rt) (marshalRefreshToken r) ex).1.Set
          none (Sprintf confirmTokenPattern e) (marshalConfirmCode c) confirmCodeTimeLive).1
        none rt = .ok r ∧
    Rdb.entriesAt ((db.Set none (Sprintf refreshTokenPattern rt) (marshalRefreshToken r) ex).1.Set
        none (Sprintf confirmTokenPattern e) (marshalConfirmCode c) confirmCodeTimeLive).1
        (Sprintf confirmTokenPattern e)
      = [⟨Sprintf confirmTokenPattern e, marshalConfirmCode c, confirmCodeTimeLive⟩] ∧
    Store.ValidateConfirmCode
        ((db.Set none (Sprintf refreshTokenPattern rt) (marshalRefreshToken r) ex).1.Set
          none (Sprintf confirmTokenPattern e) (marshalConfirmCode c) confirmCodeTimeLive).1
        none e = .ok c := by
  have hne := refreshKey_ne_confirmKey rt e
  refine ⟨?_, ?_, Rdb.entriesAt_Set _ _ _ _, ValidateConfirmCode_Set _ _ _ _⟩
  · rw [Rdb.entriesAt_Set_of_ne _ _ _ _ _ _ hne, Rdb.entriesAt_Set]
  · rw [ValidateRefreshToken_congr _ _ none rt (Rdb.Get_Set_of_ne _ _ _ _ _ _ _ hne)]
    exact ValidateRefreshToken_Set _ _ _ _

/-! ## Lemmas on the resend entry point -/

/-- What the resend entry point leaves under an email without a live record, when the backend
carries out the read and the write. -/
theorem CreateConfirmUserCode_rdb (db : Rdb) (d : Deps) (request : CreateConfirmUserCodeRequest)
    (hnone : db.Get none (Sprintf confirmTokenPattern request.Email) = GetResult.Nil)
    (hget : d.rdbFault RdbCall.SaveConfirmCode_Get = none)
    (hset : d.rdbFault RdbCall.SaveConfirmCode_Set = none) :
    (Handler.CreateConfirmUserCode db d request).rdb
      = (db.Set none (Sprintf confirmTokenPattern request.Email)
          (marshalConfirmCode ⟨I64.wrap (-1), request.FullName, d.GenerateCode⟩)
          confirmCodeTimeLive).1 := by
  unfold Handler.CreateConfirmUserCode
  rw [CreateEmailConfirmation_rdb, hget, hset, SaveConfirmCode_of_Nil _ _ _ _ _ hnone]

/-- The calls `VerifyUser` makes once the stored code matches: `ConfirmUser` for the stored
user id first, and for no other id. -/
theorem VerifyUser_calls_of_match (db : Rdb) (d : Deps) (e : String) (rec : ConfirmCode)
    (hlive : Store.ValidateConfirmCode db (d.rdbFault RdbCall.ValidateConfirmCode_Get) e
      = .ok rec) :
    (Service.VerifyUser db d e rec.Code).calls.head? = some (Call.ConfirmUser rec.UserID) ∧
    ∀ u, Call.ConfirmUser u ∈ (Service.VerifyUser db d e rec.Code).calls → u = rec.UserID := by
  unfold Service.VerifyUser
  simp only [hlive, ne_eq, not_true_eq_false, if_false]
  cases hc : d.ConfirmUser rec.UserID with
  | some err => simp
  | none =>
    simp only []
    cases hp : d.Publish RoutingKey.SuccessConfirmUserEmailKey
        (Mail.SuccessConfirmEmailMail rec.Name e) with
    | some err => simp
    | none => simp

/-! ## Further lemmas on `Register` and `VerifyUser` -/

/-- What makes `Register` succeed on a database in which no confirmation slot holds the
document `null`: `Register` returns a response exactly when `CreateUser`, the access-token
generation, the refresh-token generation and the write of `SaveRefreshToken` all succeed.
When they do, then for every outcome of the confirmation-record read and write and of the
publish, `Register` returns the issued access and refresh tokens with no error, and the
refresh token is still resolved to the provider's id and role afterwards.  When the write of
`SaveRefreshToken` fails, `Register` returns an error, no tokens, and the database is
unchanged. -/
theorem Register_succeeds_iff_of_no_null_slot (db : Rdb) (d : Deps)
    (req : CreateUserRequest) (hslots : ∀ e, confirmSlotNull db e = false) :
    ((∃ resp, (Service.Register db d req).result = Outcome.ok resp) ↔
      ∃ user acc rt, d.CreateUser req = .ok user ∧
        d.GenerateToken user.Id user.Role = .ok acc ∧
        d.GenerateRefreshToken = .ok rt ∧
        d.rdbFault RdbCall.SaveRefreshToken_Set = none) ∧
    (∀ user acc rt, d.CreateUser req = .ok user →
      d.GenerateToken user.Id user.Role = .ok acc →
      d.GenerateRefreshToken = .ok rt →
      d.rdbFault RdbCall.SaveRefreshToken_Set = none →
      (Service.Register db d req).result
        = Outcome.ok { AccessToken := acc, RefreshToken := rt, User := user } ∧
      Store.ValidateRefreshToken (Service.Register db d req).rdb none rt
        = .ok { UserID := user.Id, Role := user.Role }) ∧
    (∀ user acc rt err, d.CreateUser req = .ok user →
      d.GenerateToken user.Id user.Role = .ok acc →
      d.GenerateRefreshToken = .ok rt →
      d.rdbFault RdbCall.SaveRefreshToken_Set = some err →
      (Service.Register db d req).result
        = Outcome.error (GoError.Internal (GoError.InternalWithoutStackTrace
            (GoError.wrapf "failed to save refresh token: " err))) ∧
      (Service.Register db d req).rdb = db) := by
  refine ⟨⟨?_, ?_⟩, ?_, ?_⟩
  · rintro ⟨resp, h⟩
    obtain ⟨user, acc, rt, h1, h2, h3, h4, -⟩ := Register_ok_inv db d req resp h
    exact ⟨user, acc, rt, h1, h2, h3, h4⟩
  · rintro ⟨user, acc, rt, h1, h2, h3, h4⟩
    exact ⟨_, (Register_of_session db d req user acc rt h1 h2 h3 h4 (hslots _)).1⟩
  · intro user acc rt h1 h2 h3 h4
    obtain ⟨hres, hdb⟩ := Register_of_session db d req user acc rt h1 h2 h3 h4 (hslots _)
    refine ⟨hres, ?_⟩
    rw [hdb, ValidateRefreshToken_congr _ _ none rt (SaveConfirmCode_Get_refresh _ _ _ _ _ _ _ _ _)]
    exact ValidateRefreshToken_Set _ _ _ _
  · intro user acc rt err h1 h2 h3 h4
    exact Register_of_write_failure db d req user acc rt err h1 h2 h3 h4

theorem Get_nullSlotDb (e : String) :
    Rdb.Get (nullSlotDb e) none (Sprintf confirmTokenPattern e) = GetResult.value "null" := by
  simp [nullSlotDb, Rdb.Get]

theorem unmarshalConfirmCodePtr_null : unmarshalConfirmCodePtr "null" = .ok none := by
  decide

/-- The run of `VerifyUser` once the stored code matches and `ConfirmUser` succeeds: the
outcome of the removal shows in the database only. -/
theorem VerifyUser_of_confirmed (db : Rdb) (d : Deps) (e : String) (rec : ConfirmCode)
    (hlive : Store.ValidateConfirmCode db (d.rdbFault RdbCall.ValidateConfirmCode_Get) e
      = .ok rec)
    (hok : d.ConfirmUser rec.UserID = none) :
    (Service.VerifyUser db d e rec.Code).rdb
      = (Store.RemoveConfirmCode db (d.rdbFault RdbCall.RemoveConfirmCode_Del) e).1 ∧
    (Service.VerifyUser db d e rec.Code).calls
      = [Call.ConfirmUser rec.UserID,
         Call.Publish RoutingKey.SuccessConfirmUserEmailKey
          (Mail.SuccessConfirmEmailMail rec.Name e)] ∧
    (Service.VerifyUser db d e rec.Code).result
      = (d.Publish RoutingKey.SuccessConfirmUserEmailKey
          (Mail.SuccessConfirmEmailMail rec.Name e)).map GoError.Internal := by
  unfold Service.VerifyUser
  simp only [hlive, hok, ne_eq, not_true_eq_false, if_false]
  cases hp : d.Publish RoutingKey.SuccessConfirmUserEmailKey
      (Mail.SuccessConfirmEmailMail rec.Name e) with
  | some err => exact ⟨rfl, rfl, rfl⟩
  | none => exact ⟨rfl, rfl, rfl⟩

/-! # The claims -/

/-! ## C1 -/

/-- C1 (round trip).  For every database, user id, role, refresh token and expiration: when the
backend carries out the write, `SaveRefreshToken` returns no error, and `ValidateRefreshToken`
of the same token on the resulting database (read carried out, no TTL lapse in between)
returns without error the record with that user id and that role. -/
theorem C1_save_then_validate_refresh_token (db : Rdb) (u : I64) (r t : String) (ex : Int) :
    (Store.SaveRefreshToken db none u r t ex).2 = none ∧
    Store.ValidateRefreshToken (Store.SaveRefreshToken db none u r t ex).1 none t
      = .ok { UserID := u, Role := r } := by
  rw [SaveRefreshToken_ok]
  exact ⟨rfl, ValidateRefreshToken_Set db t ⟨u, r⟩ ex⟩

/-! ## C2 -/

/-- C2 (single-slot confirmation).  Let the confirmation slot of email `e` be empty or hold a
well-formed record.  Two `SaveConfirmCode` calls for `e` in succession, with codes `c1` and
then `c2` (any user ids and names, backend carrying out every command, no expiry in between)
both return no error, leave exactly one entry under the key of `e`, and `ValidateConfirmCode`
of `e` then returns a record whose code is `c2`. -/
theorem C2_second_code_replaces_first (db : Rdb) (e : String) (u1 u2 : I64) (n1 n2 : String)
    (c1 c2 : I64) (hslot : confirmSlotWellFormed db e = true) :
    (Store.SaveConfirmCode db none none u1 e n1 c1).2 = Outcome.ok () ∧
    (Store.SaveConfirmCode (Store.SaveConfirmCode db none none u1 e n1 c1).1
        none none u2 e n2 c2).2 = Outcome.ok () ∧
    (Rdb.entriesAt (Store.SaveConfirmCode (Store.SaveConfirmCode db none none u1 e n1 c1).1
        none none u2 e n2 c2).1 (Sprintf confirmTokenPattern e)).length = 1 ∧
    ∃ rec, Store.ValidateConfirmCode
        (Store.SaveConfirmCode (Store.SaveConfirmCode db none none u1 e n1 c1).1
          none none u2 e n2 c2).1 none e = .ok rec ∧ rec.Code = c2 := by
  have hfirst : ∃ r1 : ConfirmCode, Store.SaveConfirmCode db none none u1 e n1 c1
      = ((db.Set none (Sprintf confirmTokenPattern e) (marshalConfirmCode r1)
          confirmCodeTimeLive).1, Outcome.ok ()) := by
    unfold confirmSlotWellFormed at hslot
    cases hg : db.Get none (Sprintf confirmTokenPattern e) with
    | Nil => exact ⟨_, SaveConfirmCode_of_Nil db u1 e n1 c1 hg⟩
    | failed err => simp [hg] at hslot
    | value p =>
      simp only [hg] at hslot
      cases hu : unmarshalConfirmCodePtr p with
      | error err => simp [hu] at hslot
      | ok o =>
        cases o with
        | none => simp [hu] at hslot
        | some r0 => exact ⟨_, SaveConfirmCode_of_value db u1 e n1 p c1 r0 hg hu⟩
  obtain ⟨r1, h1⟩ := hfirst
  have h2 := SaveConfirmCode_of_value
    (db.Set none (Sprintf confirmTokenPattern e) (marshalConfirmCode r1) confirmCodeTimeLive).1
    u2 e n2 (marshalConfirmCode r1) c2 r1 (Rdb.Get_Set_same _ _ _ _)
    (unmarshalPtr_marshalConfirmCode r1)
  rw [h1]
  simp only []
  rw [h2]
  simp only []
  refine ⟨trivial, trivial, ?_, ⟨r1.UserID, r1.Name, c2⟩, ValidateConfirmCode_Set _ _ _ _, rfl⟩
  rw [Rdb.entriesAt_Set]
  rfl

/-- Witness of C2: the codes 111111 and then 222222 for "a@x.com" on the empty database. -/
theorem C2_second_code_replaces_first_witness :
    (Store.SaveConfirmCode [] none none 7 "a@x.com" "Ann" 111111).2 = Outcome.ok () ∧
    (Store.SaveConfirmCode (Store.SaveConfirmCode [] none none 7 "a@x.com" "Ann" 111111).1
        none none 7 "a@x.com" "Ann" 222222).2 = Outcome.ok () ∧
    (Rdb.entriesAt (Store.SaveConfirmCode
        (Store.SaveConfirmCode [] none none 7 "a@x.com" "Ann" 111111).1
        none none 7 "a@x.com" "Ann" 222222).1 (Sprintf confirmTokenPattern "a@x.com")).length
      = 1 ∧
    ∃ rec, Store.ValidateConfirmCode
        (Store.SaveConfirmCode (Store.SaveConfirmCode [] none none 7 "a@x.com" "Ann" 111111).1
          none none 7 "a@x.com" "Ann" 222222).1 none "a@x.com" = .ok rec ∧
      rec.Code = 222222 :=
  C2_second_code_replaces_first [] "a@x.com" 7 7 "Ann" "Ann" 111111 222222 (by decide)

/-! ## C3 -/

/-- C3 (only the code is replaced).  Let email `e` have a live record whose stored document
decodes to `{userID u0, name n0, code c0}`.  A call `SaveConfirmCode(u, e, n, c)`, with any `u`
and `n`, returns no error when the backend carries out its read and its write; and whenever
the call returns no error, the one entry under the key of `e` afterwards is the document of
`{userID u0, name n0, code c}`, written with the expiration `confirmCodeTimeLive`, which is
exactly 5 minutes, and `ValidateConfirmCode` of `e` returns `{userID u0, name n0, code c}`. -/
theorem C3_existing_record_keeps_user_and_name (db : Rdb) (e p : String) (u0 : I64)
    (n0 : String) (c0 u : I64) (n : String) (c : I64) (gf sf : Option GoError)
    (hlive : db.Get none (Sprintf confirmTokenPattern e) = GetResult.value p)
    (hrec : unmarshalConfirmCodePtr p = .ok (some { UserID := u0, Name := n0, Code := c0 })) :
    (Store.SaveConfirmCode db none none u e n c).2 = Outcome.ok () ∧
    ((Store.SaveConfirmCode db gf sf u e n c).2 = Outcome.ok () →
      Rdb.entriesAt (Store.SaveConfirmCode db gf sf u e n c).1 (Sprintf confirmTokenPattern e)
        = [{ key := Sprintf confirmTokenPattern e,
             value := marshalConfirmCode { UserID := u0, Name := n0, Code := c },
             expiration := confirmCodeTimeLive }] ∧
      Store.ValidateConfirmCode (Store.SaveConfirmCode db gf sf u e n c).1 none e
        = .ok { UserID := u0, Name := n0, Code := c }) ∧
    confirmCodeTimeLive = 5 * 60 * 1000000000 := by
  have hrun := SaveConfirmCode_of_value db u e n p c _ hlive hrec
  refine ⟨by rw [hrun], ?_, by decide⟩
  intro hok
  obtain ⟨rfl, rfl, -⟩ := SaveConfirmCode_ok_inv db gf sf u e n c hok
  rw [hrun]
  exact ⟨Rdb.entriesAt_Set _ _ _ _, ValidateConfirmCode_Set _ _ _ _⟩

/-- Witness of C3: the record `{-1, "X", 111111}` of "a@x.com" and the call
`SaveConfirmCode(7, "a@x.com", "Ann", 222222)`. -/
theorem C3_existing_record_keeps_user_and_name_witness :
    (Store.SaveConfirmCode (confirmDb "a@x.com" ⟨I64.wrap (-1), "X", 111111⟩)
        none none 7 "a@x.com" "Ann" 222222).2 = Outcome.ok () ∧
    Rdb.entriesAt (Store.SaveConfirmCode (confirmDb "a@x.com" ⟨I64.wrap (-1), "X", 111111⟩)
        none none 7 "a@x.com" "Ann" 222222).1 (Sprintf confirmTokenPattern "a@x.com")
      = [{ key := Sprintf confirmTokenPattern "a@x.com",
           value := marshalConfirmCode { UserID := I64.wrap (-1), Name := "X", Code := 222222 },
           expiration := confirmCodeTimeLive }] ∧
    Store.ValidateConfirmCode (Store.SaveConfirmCode
        (confirmDb "a@x.com" ⟨I64.wrap (-1), "X", 111111⟩)
        none none 7 "a@x.com" "Ann" 222222).1 none "a@x.com"
      = .ok { UserID := I64.wrap (-1), Name := "X", Code := 222222 } :=
  have h := C3_existing_record_keeps_user_and_name
    (confirmDb "a@x.com" ⟨I64.wrap (-1), "X", 111111⟩) "a@x.com" _ (I64.wrap (-1)) "X" 111111 7
    "Ann" 222222 none none (Get_confirmDb _ _) (unmarshalPtr_marshalConfirmCode _)
  ⟨h.1, (h.2.1 h.1).1, (h.2.1 h.1).2⟩

/-! ## C4 -/

/-- C4 (mismatch isolation).  Let `ValidateConfirmCode` find a live record for email `e`, and
let the supplied code differ from the stored one.  Then `VerifyUser` returns the bad-request
error with the client-facing message "Confirm code is incorrect", the database is unchanged,
and no call is made: neither `ConfirmUser` nor a publish. -/
theorem C4_wrong_code_changes_nothing (db : Rdb) (d : Deps) (e : String) (code : I64)
    (rec : ConfirmCode)
    (hlive : Store.ValidateConfirmCode db (d.rdbFault RdbCall.ValidateConfirmCode_Get) e
      = .ok rec)
    (hne : rec.Code ≠ code) :
    (Service.VerifyUser db d e code).result
      = some (GoError.BadRequestHidden GoError.nil "Confirm code is incorrect") ∧
    (Service.VerifyUser db d e code).rdb = db ∧
    (Service.VerifyUser db d e code).calls = [] := by
  simp [Service.VerifyUser, hlive, hne]

/-- Witness of C4: the record `{7, "Ann", 111111}` of "a@x.com" and the supplied code 222222. -/
theorem C4_wrong_code_changes_nothing_witness :
    (Service.VerifyUser (confirmDb "a@x.com" ⟨7, "Ann", 111111⟩) sampleDeps "a@x.com"
        222222).result
      = some (GoError.BadRequestHidden GoError.nil "Confirm code is incorrect") ∧
    (Service.VerifyUser (confirmDb "a@x.com" ⟨7, "Ann", 111111⟩) sampleDeps "a@x.com"
        222222).rdb = confirmDb "a@x.com" ⟨7, "Ann", 111111⟩ ∧
    (Service.VerifyUser (confirmDb "a@x.com" ⟨7, "Ann", 111111⟩) sampleDeps "a@x.com"
        222222).calls = [] :=
  C4_wrong_code_changes_nothing _ sampleDeps "a@x.com" 222222 ⟨7, "Ann", 111111⟩
    (ValidateConfirmCode_confirmDb _ _) (by decide)

/-! ## C5 -/

/-- C5, refuted as stated.  On the empty database the absent token "t" is reported with the
error kind `InternalWithoutStackTrace`; a backend read failure for the same token is reported
with the same kind. -/
theorem C5_absent_and_backend_failure_share_kind :
    errorKind (Store.ValidateRefreshToken [] none "t")
      = some ErrKind.internalWithoutStackTrace ∧
    errorKind (Store.ValidateRefreshToken [] (some (GoError.text "dial tcp: i/o timeout")) "t")
      = some ErrKind.internalWithoutStackTrace := by
  constructor <;> rfl

/-- C5 as amended.  For a refresh token whose key is absent, `ValidateRefreshToken` returns
`InternalWithoutStackTrace` over the message "invalid or expired refresh token".  A backend
read failure is reported with the same constructor, over the cause prefixed with
"failed to validate refresh token: ", and a stored document that does not decode with
`Internal` over the decoding error.  So absence has the error kind of a backend read failure
and differs from it by its message, and it differs in kind from a malformed document.  The
same holds for `ValidateConfirmCode` on an absent email, with the messages
"invalid or expired confirm code" and "failed to validate confirm code: ". -/
theorem C5_absent_key_is_internal_error_with_own_message (db dbm : Rdb) (t e : String)
    (cause : GoError) (p q : String) (perr qerr : GoError)
    (habsent : db.Get none (Sprintf refreshTokenPattern t) = GetResult.Nil)
    (habsent2 : db.Get none (Sprintf confirmTokenPattern e) = GetResult.Nil)
    (hp : dbm.Get none (Sprintf refreshTokenPattern t) = GetResult.value p)
    (hperr : unmarshalRefreshToken p = .error perr)
    (hq : dbm.Get none (Sprintf confirmTokenPattern e) = GetResult.value q)
    (hqerr : unmarshalConfirmCode q = .error qerr) :
    (Store.ValidateRefreshToken db none t
        = .error (GoError.InternalWithoutStackTrace
            (GoError.text "invalid or expired refresh token")) ∧
      Store.ValidateRefreshToken db (some cause) t
        = .error (GoError.InternalWithoutStackTrace
            (GoError.wrapf "failed to validate refresh token: " cause)) ∧
      Store.ValidateRefreshToken dbm none t = .error (GoError.Internal perr) ∧
      errorKind (Store.ValidateRefreshToken db none t)
        = errorKind (Store.ValidateRefreshToken db (some cause) t) ∧
      errorMessage (Store.ValidateRefreshToken db none t)
        ≠ errorMessage (Store.ValidateRefreshToken db (some cause) t) ∧
      errorKind (Store.ValidateRefreshToken db none t)
        ≠ errorKind (Store.ValidateRefreshToken dbm none t)) ∧
    (Store.ValidateConfirmCode db none e
        = .error (GoError.InternalWithoutStackTrace
            (GoError.text "invalid or expired confirm code")) ∧
      Store.ValidateConfirmCode db (some cause) e
        = .error (GoError.InternalWithoutStackTrace
            (GoError.wrapf "failed to validate confirm code: " cause)) ∧
      Store.ValidateConfirmCode dbm none e = .error (GoError.Internal qerr) ∧
      errorKind (Store.ValidateConfirmCode db none e)
        = errorKind (Store.ValidateConfirmCode db (some cause) e) ∧
      errorMessage (Store.ValidateConfirmCode db none e)
        ≠ errorMessage (Store.ValidateConfirmCode db (some cause) e) ∧
      errorKind (Store.ValidateConfirmCode db none e)
        ≠ errorKind (Store.ValidateConfirmCode dbm none e)) := by
  have h1 : Store.ValidateRefreshToken db none t
      = .error (GoError.InternalWithoutStackTrace
          (GoError.text "invalid or expired refresh token")) := by
    simp [Store.ValidateRefreshToken, habsent]
  have h2 : Store.ValidateConfirmCode db none e
      = .error (GoError.InternalWithoutStackTrace
          (GoError.text "invalid or expired confirm code")) := by
    simp [Store.ValidateConfirmCode, habsent2]
  have h3 : Store.ValidateRefreshToken db (some cause) t
      = .error (GoError.InternalWithoutStackTrace
          (GoError.wrapf "failed to validate refresh token: " cause)) := by
    simp [Store.ValidateRefreshToken, Rdb.Get]
  have h4 : Store.ValidateConfirmCode db (some cause) e
      = .error (GoError.InternalWithoutStackTrace
          (GoError.wrapf "failed to validate confirm code: " cause)) := by
    simp [Store.ValidateConfirmCode, Rdb.Get]
  have h5 : Store.ValidateRefreshToken dbm none t = .error (GoError.Internal perr) := by
    simp [Store.ValidateRefreshToken, hp, hperr]
  have h6 : Store.ValidateConfirmCode dbm none e = .error (GoError.Internal qerr) := by
    simp [Store.ValidateConfirmCode, hq, hqerr]
  refine ⟨⟨h1, h3, h5, ?_, ?_, ?_⟩, ⟨h2, h4, h6, ?_, ?_, ?_⟩⟩
  · rw [h1, h3]; rfl
  · rw [h1, h3]
    simp only [errorMessage, GoError.message, ne_eq, Option.some.injEq]
    exact fun h => message_ne "refresh token" ("refresh token: " ++ cause.message)
      (by simpa [String.append_assoc] using h)
  · rw [h1, h5]
    simp [errorKind, GoError.kind]
  · rw [h2, h4]; rfl
  · rw [h2, h4]
    simp only [errorMessage, GoError.message, ne_eq, Option.some.injEq]
    exact fun h => message_ne "confirm code" ("confirm code: " ++ cause.message)
      (by simpa [String.append_assoc] using h)
  · rw [h2, h6]
    simp [errorKind, GoError.kind]

/-- Witness of C5 as amended: the token "t" and the email "a@x.com", absent from the empty
database, a read timeout, and a database holding under both keys a text that is not JSON. -/
theorem C5_absent_key_is_internal_error_with_own_message_witness :
    errorKind (Store.ValidateRefreshToken [] none "t")
      = errorKind (Store.ValidateRefreshToken [] (some (GoError.text "i/o timeout")) "t") ∧
    errorMessage (Store.ValidateRefreshToken [] none "t")
      ≠ errorMessage (Store.ValidateRefreshToken [] (some (GoError.text "i/o timeout")) "t") ∧
    errorKind (Store.ValidateRefreshToken [] none "t")
      ≠ errorKind (Store.ValidateRefreshToken
          [⟨Sprintf refreshTokenPattern "t", "garbage", 0⟩,
           ⟨Sprintf confirmTokenPattern "a@x.com", "garbage", 0⟩] none "t") ∧
    errorKind (Store.ValidateConfirmCode [] none "a@x.com")
      = errorKind (Store.ValidateConfirmCode [] (some (GoError.text "i/o timeout")) "a@x.com") :=
  have h := C5_absent_key_is_internal_error_with_own_message []
    [⟨Sprintf refreshTokenPattern "t", "garbage", 0⟩,
     ⟨Sprintf confirmTokenPattern "a@x.com", "garbage", 0⟩]
    "t" "a@x.com" (GoError.text "i/o timeout") "garbage" "garbage" jsonSyntaxError
    jsonSyntaxError rfl rfl (by decide) (by decide) (by decide) (by decide)
  ⟨h.1.2.2.2.1, h.1.2.2.2.2.1, h.1.2.2.2.2.2, h.2.2.2.2.1⟩

/-! ## C6 -/

/-- C6, the failing input.  The confirmation slot of "a@x.com" holds the JSON document `null`.
In the sample registration `CreateUser`, the access-token generation, the refresh-token
generation and the write of `SaveRefreshToken` all succeed, and the refresh token is resolved
afterwards; yet `Register` does not return the tokens: `SaveConfirmCode` decodes `null` into a
nil record and the assignment of the code panics.  With a text that is not JSON in the same
slot the confirmation step fails with an error and `Register` returns the tokens. -/
theorem C6_null_slot_makes_register_panic :
    sampleDeps.CreateUser ⟨"a@x.com", "Ann", "pw"⟩ = .ok sampleUser ∧
    sampleDeps.GenerateToken sampleUser.Id sampleUser.Role = .ok "access-1" ∧
    sampleDeps.GenerateRefreshToken = .ok "refresh-1" ∧
    (Store.SaveRefreshToken (nullSlotDb "a@x.com")
        (sampleDeps.rdbFault RdbCall.SaveRefreshToken_Set) sampleUser.Id sampleUser.Role
        "refresh-1" sampleDeps.GetRefreshExpiration).2 = none ∧
    (Service.Register (nullSlotDb "a@x.com") sampleDeps ⟨"a@x.com", "Ann", "pw"⟩).result
      = Outcome.panic "invalid memory address or nil pointer dereference" ∧
    Store.ValidateRefreshToken
        (Service.Register (nullSlotDb "a@x.com") sampleDeps ⟨"a@x.com", "Ann", "pw"⟩).rdb
        none "refresh-1" = .ok { UserID := 7, Role := "user" } ∧
    (Service.Register
        [{ key := Sprintf confirmTokenPattern "a@x.com", value := "garbage",
           expiration := confirmCodeTimeLive }]
        sampleDeps ⟨"a@x.com", "Ann", "pw"⟩).result
      = Outcome.ok { AccessToken := "access-1", RefreshToken := "refresh-1",
                     User := sampleUser } := by
  have hsave : Store.SaveConfirmCode
      ((nullSlotDb "a@x.com").Set none (Sprintf refreshTokenPattern "refresh-1")
        (marshalRefreshToken ⟨7, "user"⟩) 2592000000000000).1 none none 7 "a@x.com" "Ann" 222222
      = (((nullSlotDb "a@x.com").Set none (Sprintf refreshTokenPattern "refresh-1")
          (marshalRefreshToken ⟨7, "user"⟩) 2592000000000000).1,
        Outcome.panic "invalid memory address or nil pointer dereference") := by
    have hg : Rdb.Get ((nullSlotDb "a@x.com").Set none (Sprintf refreshTokenPattern "refresh-1")
        (marshalRefreshToken ⟨7, "user"⟩) 2592000000000000).1 none
        (Sprintf confirmTokenPattern "a@x.com") = GetResult.value "null" := by
      rw [Rdb.Get_Set_of_ne _ _ _ _ _ _ _ (Ne.symm (refreshKey_ne_confirmKey _ _))]
      exact Get_nullSlotDb _
    simp [Store.SaveConfirmCode, hg, unmarshalConfirmCodePtr_null]
  have hrun : Service.Register (nullSlotDb "a@x.com") sampleDeps ⟨"a@x.com", "Ann", "pw"⟩
      = ⟨((nullSlotDb "a@x.com").Set none (Sprintf refreshTokenPattern "refresh-1")
          (marshalRefreshToken ⟨7, "user"⟩) 2592000000000000).1,
        [Call.CreateUser ⟨"a@x.com", "Ann", "pw"⟩, Call.GenerateToken 7 "user"],
        Outcome.panic "invalid memory address or nil pointer dereference"⟩ := by
    simp [Service.Register, Service.CreateEmailConfirmation, sampleDeps, Deps.succeeding,
      sampleUser, SaveRefreshToken_ok, hsave]
  refine ⟨rfl, rfl, rfl, ?_, ?_, ?_, ?_⟩
  · rw [show sampleDeps.rdbFault RdbCall.SaveRefreshToken_Set = none from rfl,
      SaveRefreshToken_ok]
  · rw [hrun]
  · rw [hrun]
    exact ValidateRefreshToken_Set _ _ _ _
  · exact (Register_of_session _ sampleDeps ⟨"a@x.com", "Ann", "pw"⟩ sampleUser "access-1"
      "refresh-1" rfl rfl rfl rfl (by decide)).1

/-! ## C7 -/

/-- C7, refuted as stated.  Email "a@x.com" holds the record `{7, "Ann", 111111}`, the
supplied code matches, `ConfirmUser` succeeds, and the backend fails the `DEL` of the removal.
`VerifyUser` ignores that failure: it publishes and returns no error, and the record of
"a@x.com" is still there. -/
theorem C7_failed_removal_leaves_the_record :
    (Service.VerifyUser (confirmDb "a@x.com" ⟨7, "Ann", 111111⟩)
        { sampleDeps with
          rdbFault := fun c =>
            if c = RdbCall.RemoveConfirmCode_Del then some (GoError.text "i/o timeout")
            else none }
        "a@x.com" 111111).result = none ∧
    (Service.VerifyUser (confirmDb "a@x.com" ⟨7, "Ann", 111111⟩)
        { sampleDeps with
          rdbFault := fun c =>
            if c = RdbCall.RemoveConfirmCode_Del then some (GoError.text "i/o timeout")
            else none }
        "a@x.com" 111111).calls
      = [Call.ConfirmUser 7,
         Call.Publish RoutingKey.SuccessConfirmUserEmailKey
          (Mail.SuccessConfirmEmailMail "Ann" "a@x.com")] ∧
    Store.ValidateConfirmCode
        (Service.VerifyUser (confirmDb "a@x.com" ⟨7, "Ann", 111111⟩)
          { sampleDeps with
            rdbFault := fun c =>
              if c = RdbCall.RemoveConfirmCode_Del then some (GoError.text "i/o timeout")
              else none }
          "a@x.com" 111111).rdb none "a@x.com"
      = .ok { UserID := 7, Name := "Ann", Code := 111111 } := by
  have hv := ValidateConfirmCode_confirmDb "a@x.com" ⟨7, "Ann", 111111⟩
  have hrun : Service.VerifyUser (confirmDb "a@x.com" ⟨7, "Ann", 111111⟩)
      { sampleDeps with
        rdbFault := fun c =>
          if c = RdbCall.RemoveConfirmCode_Del then some (GoError.text "i/o timeout")
          else none }
      "a@x.com" 111111
      = ⟨confirmDb "a@x.com" ⟨7, "Ann", 111111⟩,
          [Call.ConfirmUser 7,
           Call.Publish RoutingKey.SuccessConfirmUserEmailKey
            (Mail.SuccessConfirmEmailMail "Ann" "a@x.com")], none⟩ := by
    simp [Service.VerifyUser, hv, sampleDeps, Deps.succeeding, Store.RemoveConfirmCode, Rdb.Del]
  rw [hrun]
  exact ⟨rfl, rfl, hv⟩

/-- C7 as amended.  Let `ValidateConfirmCode` find a live record for email `e` whose code is
the supplied one.  If `ConfirmUser` fails, `VerifyUser` returns that error, the database is
unchanged, so that the same code passes validation again, and nothing is published.  If
`ConfirmUser` succeeds, `VerifyUser` issues the removal of the record: the database
afterwards is the one `RemoveConfirmCode` leaves, in which the key of `e` is absent when the
backend carries out the removal.  A failure of the removal is ignored: whatever the backend
does with it, `VerifyUser` goes on to publish the success mail and returns what the publish
decides, nil or the internal error of a failed publish; and after a failed removal the
database is the one before. -/
theorem C7_record_removed_only_after_confirm (db : Rdb) (d : Deps) (e : String)
    (rec : ConfirmCode)
    (hlive : Store.ValidateConfirmCode db (d.rdbFault RdbCall.ValidateConfirmCode_Get) e
      = .ok rec) :
    (∀ err, d.ConfirmUser rec.UserID = some err →
      (Service.VerifyUser db d e rec.Code).result = some err ∧
      (Service.VerifyUser db d e rec.Code).rdb = db ∧
      (Service.VerifyUser db d e rec.Code).calls = [Call.ConfirmUser rec.UserID] ∧
      Store.ValidateConfirmCode (Service.VerifyUser db d e rec.Code).rdb
        (d.rdbFault RdbCall.ValidateConfirmCode_Get) e = .ok rec) ∧
    (d.ConfirmUser rec.UserID = none →
      (Service.VerifyUser db d e rec.Code).rdb
        = (Store.RemoveConfirmCode db (d.rdbFault RdbCall.RemoveConfirmCode_Del) e).1 ∧
      (Service.VerifyUser db d e rec.Code).calls
        = [Call.ConfirmUser rec.UserID,
           Call.Publish RoutingKey.SuccessConfirmUserEmailKey
            (Mail.SuccessConfirmEmailMail rec.Name e)] ∧
      (Service.VerifyUser db d e rec.Code).result
        = (d.Publish RoutingKey.SuccessConfirmUserEmailKey
            (Mail.SuccessConfirmEmailMail rec.Name e)).map GoError.Internal ∧
      (d.rdbFault RdbCall.RemoveConfirmCode_Del = none →
        Rdb.entriesAt (Service.VerifyUser db d e rec.Code).rdb (Sprintf confirmTokenPattern e)
          = [] ∧
        Rdb.Get (Service.VerifyUser db d e rec.Code).rdb none (Sprintf confirmTokenPattern e)
          = GetResult.Nil) ∧
      (∀ err, d.rdbFault RdbCall.RemoveConfirmCode_Del = some err →
        (Service.VerifyUser db d e rec.Code).rdb = db ∧
        (d.Publish RoutingKey.SuccessConfirmUserEmailKey
            (Mail.SuccessConfirmEmailMail rec.Name e) = none →
          (Service.VerifyUser db d e rec.Code).result = none))) := by
  constructor
  · intro err herr
    have hrun : Service.VerifyUser db d e rec.Code
        = ⟨db, [Call.ConfirmUser rec.UserID], some err⟩ := by
      simp [Service.VerifyUser, hlive, herr]
    rw [hrun]
    exact ⟨rfl, rfl, rfl, hlive⟩
  · intro hok
    obtain ⟨hdb, hcalls, hres⟩ := VerifyUser_of_confirmed db d e rec hlive hok
    refine ⟨hdb, hcalls, hres, ?_, ?_⟩
    · intro hdel
      rw [hdb, hdel]
      constructor
      · simp [Store.RemoveConfirmCode, Rdb.Del, Rdb.entriesAt, List.filter_filter]
      · exact Rdb.Get_Del_same db _
    · intro err hdel
      refine ⟨by rw [hdb, hdel]; rfl, ?_⟩
      intro hp
      rw [hres, hp]
      rfl

/-- Witness of C7 as amended: the record `{7, "Ann", 111111}` of "a@x.com" and the matching
code, once with the identity provider refusing and once with every collaborator succeeding. -/
theorem C7_record_removed_only_after_confirm_witness :
    ((Service.VerifyUser (confirmDb "a@x.com" ⟨7, "Ann", 111111⟩) sampleDepsConfirmFails
        "a@x.com" 111111).result = some (GoError.text "rpc error: user not found") ∧
      (Service.VerifyUser (confirmDb "a@x.com" ⟨7, "Ann", 111111⟩) sampleDepsConfirmFails
        "a@x.com" 111111).rdb = confirmDb "a@x.com" ⟨7, "Ann", 111111⟩ ∧
      (Service.VerifyUser (confirmDb "a@x.com" ⟨7, "Ann", 111111⟩) sampleDepsConfirmFails
        "a@x.com" 111111).calls = [Call.ConfirmUser 7] ∧
      Store.ValidateConfirmCode
        (Service.VerifyUser (confirmDb "a@x.com" ⟨7, "Ann", 111111⟩) sampleDepsConfirmFails
          "a@x.com" 111111).rdb none "a@x.com" = .ok ⟨7, "Ann", 111111⟩) ∧
    (Service.VerifyUser (confirmDb "a@x.com" ⟨7, "Ann", 111111⟩) sampleDeps
        "a@x.com" 111111).calls
      = [Call.ConfirmUser 7,
         Call.Publish RoutingKey.SuccessConfirmUserEmailKey
          (Mail.SuccessConfirmEmailMail "Ann" "a@x.com")] ∧
    (Service.VerifyUser (confirmDb "a@x.com" ⟨7, "Ann", 111111⟩) sampleDeps
        "a@x.com" 111111).result = none ∧
    Rdb.Get (Service.VerifyUser (confirmDb "a@x.com" ⟨7, "Ann", 111111⟩) sampleDeps
        "a@x.com" 111111).rdb none (Sprintf confirmTokenPattern "a@x.com") = GetResult.Nil :=
  have h1 := (C7_record_removed_only_after_confirm (confirmDb "a@x.com" ⟨7, "Ann", 111111⟩)
    sampleDepsConfirmFails "a@x.com" ⟨7, "Ann", 111111⟩
    (ValidateConfirmCode_confirmDb _ _)).1 _ rfl
  have h2 := (C7_record_removed_only_after_confirm (confirmDb "a@x.com" ⟨7, "Ann", 111111⟩)
    sampleDeps "a@x.com" ⟨7, "Ann", 111111⟩ (ValidateConfirmCode_confirmDb _ _)).2 rfl
  ⟨h1, h2.2.1, h2.2.2.1, (h2.2.2.2.1 rfl).2⟩

/-! ## C8 -/

/-- C8 (no rotation).  Let refresh token `t` be resolved to `(u, r)` on database `db`.  A call
`RefreshToken(t)` (read carried out) leaves the database as it is and asks for one access
token, for exactly `(u, r)`, which it returns.  So two calls in succession both return the
signed token when signing succeeds, and `t` is still resolved to `(u, r)` afterwards. -/
theorem C8_refresh_does_not_rotate (db : Rdb) (d1 d2 : Deps) (t : String) (u : I64)
    (r : String)
    (hvalid : Store.ValidateRefreshToken db none t = .ok { UserID := u, Role := r })
    (hread1 : d1.rdbFault RdbCall.ValidateRefreshToken_Get = none)
    (hread2 : d2.rdbFault RdbCall.ValidateRefreshToken_Get = none) :
    (Service.RefreshToken db d1 t).rdb = db ∧
    (Service.RefreshToken db d1 t).calls = [Call.GenerateToken u r] ∧
    (Service.RefreshToken db d1 t).result = d1.GenerateToken u r ∧
    (Service.RefreshToken (Service.RefreshToken db d1 t).rdb d2 t).rdb = db ∧
    (Service.RefreshToken (Service.RefreshToken db d1 t).rdb d2 t).calls
      = [Call.GenerateToken u r] ∧
    (Service.RefreshToken (Service.RefreshToken db d1 t).rdb d2 t).result
      = d2.GenerateToken u r ∧
    (∀ a1 a2, d1.GenerateToken u r = .ok a1 → d2.GenerateToken u r = .ok a2 →
      (Service.RefreshToken db d1 t).result = .ok a1 ∧
      (Service.RefreshToken (Service.RefreshToken db d1 t).rdb d2 t).result = .ok a2) ∧
    Store.ValidateRefreshToken
      (Service.RefreshToken (Service.RefreshToken db d1 t).rdb d2 t).rdb none t
      = .ok { UserID := u, Role := r } := by
  have h1 : Service.RefreshToken db d1 t
      = ⟨db, [Call.GenerateToken u r], d1.GenerateToken u r⟩ := by
    simp [Service.RefreshToken, hread1, hvalid]
  have h2 : Service.RefreshToken db d2 t
      = ⟨db, [Call.GenerateToken u r], d2.GenerateToken u r⟩ := by
    simp [Service.RefreshToken, hread2, hvalid]
  rw [h1]
  simp only []
  rw [h2]
  simp only []
  refine ⟨trivial, trivial, trivial, trivial, trivial, trivial, ?_, hvalid⟩
  intro a1 a2 ha1 ha2
  exact ⟨ha1, ha2⟩

/-- Witness of C8: the token "refresh-1" bound to `(7, "user")`, refreshed twice, the signer
handing out "access-1" and then "access-2". -/
theorem C8_refresh_does_not_rotate_witness :
    (Service.RefreshToken (refreshDb "refresh-1" ⟨7, "user"⟩ 2592000000000000) sampleDeps
      "refresh-1").result = .ok "access-1" ∧
    (Service.RefreshToken
      (Service.RefreshToken (refreshDb "refresh-1" ⟨7, "user"⟩ 2592000000000000) sampleDeps
        "refresh-1").rdb
      { sampleDeps with GenerateToken := fun _ _ => .ok "access-2" } "refresh-1").result
      = .ok "access-2" ∧
    Store.ValidateRefreshToken
      (Service.RefreshToken
        (Service.RefreshToken (refreshDb "refresh-1" ⟨7, "user"⟩ 2592000000000000) sampleDeps
          "refresh-1").rdb
        { sampleDeps with GenerateToken := fun _ _ => .ok "access-2" } "refresh-1").rdb
      none "refresh-1" = .ok { UserID := 7, Role := "user" } :=
  have h := C8_refresh_does_not_rotate (refreshDb "refresh-1" ⟨7, "user"⟩ 2592000000000000)
    sampleDeps { sampleDeps with GenerateToken := fun _ _ => .ok "access-2" } "refresh-1" 7
    "user" (ValidateRefreshToken_refreshDb _ _ _) rfl rfl
  ⟨(h.2.2.2.2.2.2.1 "access-1" "access-2" rfl rfl).1,
    (h.2.2.2.2.2.2.1 "access-1" "access-2" rfl rfl).2, h.2.2.2.2.2.2.2⟩

/-! ## C9 -/

/-- C9, refuted as stated.  Email "a@x.com" holds a live record `{-1, "X", 111111}` (what the
resend entry point stores).  The sample registration (provider identity `{7, "user"}`,
"a@x.com", "Ann", generated code 222222, every backend command carried out) succeeds, and the
confirmation record afterwards is `{-1, "X", 222222}`, not `{7, "Ann", 222222}`. -/
theorem C9_prior_record_keeps_its_user_and_name :
    (Service.Register (confirmDb "a@x.com" ⟨I64.wrap (-1), "X", 111111⟩) sampleDeps
        ⟨"a@x.com", "Ann", "pw"⟩).result
      = Outcome.ok { AccessToken := "access-1", RefreshToken := "refresh-1",
                     User := sampleUser } ∧
    Store.ValidateConfirmCode
        (Service.Register (confirmDb "a@x.com" ⟨I64.wrap (-1), "X", 111111⟩) sampleDeps
          ⟨"a@x.com", "Ann", "pw"⟩).rdb none "a@x.com"
      = .ok { UserID := I64.wrap (-1), Name := "X", Code := 222222 } ∧
    Store.ValidateConfirmCode
        (Service.Register (confirmDb "a@x.com" ⟨I64.wrap (-1), "X", 111111⟩) sampleDeps
          ⟨"a@x.com", "Ann", "pw"⟩).rdb none "a@x.com"
      ≠ .ok { UserID := 7, Name := "Ann", Code := 222222 } := by
  obtain ⟨hres, hdb⟩ := Register_rdb_of_success
    (confirmDb "a@x.com" ⟨I64.wrap (-1), "X", 111111⟩) sampleDeps ⟨"a@x.com", "Ann", "pw"⟩
    sampleUser "access-1" "refresh-1" rfl rfl rfl (fun _ => rfl)
    ⟨I64.wrap (-1), "X", 222222⟩
    (Or.inr ⟨_, _, Get_confirmDb _ _, unmarshalPtr_marshalConfirmCode _, rfl⟩)
  have hv := (entries_after_both_writes (confirmDb "a@x.com" ⟨I64.wrap (-1), "X", 111111⟩)
    "refresh-1" "a@x.com" ⟨7, "user"⟩ 2592000000000000 ⟨I64.wrap (-1), "X", 222222⟩).2.2.2
  have hv2 : Store.ValidateConfirmCode
      (Service.Register (confirmDb "a@x.com" ⟨I64.wrap (-1), "X", 111111⟩) sampleDeps
        ⟨"a@x.com", "Ann", "pw"⟩).rdb none "a@x.com"
      = .ok ⟨I64.wrap (-1), "X", 222222⟩ := by
    rw [hdb]; exact hv
  refine ⟨hres, hv2, ?_⟩
  rw [hv2]
  decide

/-- C9 as amended.  Let `Register` run with the provider returning a user with id `i`, role
`r`, email `e` and full name `n`, the issuer succeeding, and the backend carrying out every
read and write.  Then `Register` succeeds, and afterwards the one entry under the issued
refresh token is the document of `{userID i, role r}`, written with the configured refresh
expiration, and it is validated to that record.  If `e` had no live confirmation record
before, the one entry under `e` is the document of `{userID i, name n, code c}` with `c` the
code generated for this registration.  If `e` had a live record `{userID u0, name n0, code c0}`
before, the one entry under `e` is the document of `{userID u0, name n0, code c}`: the user id
and the name of the earlier record stay.  Either entry is written with `confirmCodeTimeLive`. -/
theorem C9_register_writes_session_and_confirmation (db : Rdb) (d : Deps)
    (req : CreateUserRequest) (user : User) (acc rt : String)
    (hcu : d.CreateUser req = .ok user)
    (hat : d.GenerateToken user.Id user.Role = .ok acc)
    (hrt : d.GenerateRefreshToken = .ok rt)
    (hfault : ∀ c, d.rdbFault c = none) :
    (db.Get none (Sprintf confirmTokenPattern user.Email) = GetResult.Nil →
      (Service.Register db d req).result
        = Outcome.ok { AccessToken := acc, RefreshToken := rt, User := user } ∧
      Rdb.entriesAt (Service.Register db d req).rdb (Sprintf refreshTokenPattern rt)
        = [⟨Sprintf refreshTokenPattern rt, marshalRefreshToken ⟨user.Id, user.Role⟩,
            d.GetRefreshExpiration⟩] ∧
      Store.ValidateRefreshToken (Service.Register db d req).rdb none rt
        = .ok { UserID := user.Id, Role := user.Role } ∧
      Rdb.entriesAt (Service.Register db d req).rdb (Sprintf confirmTokenPattern user.Email)
        = [⟨Sprintf confirmTokenPattern user.Email,
            marshalConfirmCode ⟨user.Id, user.FullName, d.GenerateCode⟩,
            confirmCodeTimeLive⟩] ∧
      Store.ValidateConfirmCode (Service.Register db d req).rdb none user.Email
        = .ok { UserID := user.Id, Name := user.FullName, Code := d.GenerateCode }) ∧
    (∀ p u0 n0 c0, db.Get none (Sprintf confirmTokenPattern user.Email) = GetResult.value p →
      unmarshalConfirmCodePtr p = .ok (some { UserID := u0, Name := n0, Code := c0 }) →
      (Service.Register db d req).result
        = Outcome.ok { AccessToken := acc, RefreshToken := rt, User := user } ∧
      Rdb.entriesAt (Service.Register db d req).rdb (Sprintf refreshTokenPattern rt)
        = [⟨Sprintf refreshTokenPattern rt, marshalRefreshToken ⟨user.Id, user.Role⟩,
            d.GetRefreshExpiration⟩] ∧
      Store.ValidateRefreshToken (Service.Register db d req).rdb none rt
        = .ok { UserID := user.Id, Role := user.Role } ∧
      Rdb.entriesAt (Service.Register db d req).rdb (Sprintf confirmTokenPattern user.Email)
        = [⟨Sprintf confirmTokenPattern user.Email,
            marshalConfirmCode ⟨u0, n0, d.GenerateCode⟩, confirmCodeTimeLive⟩] ∧
      Store.ValidateConfirmCode (Service.Register db d req).rdb none user.Email
        = .ok { UserID := u0, Name := n0, Code := d.GenerateCode }) := by
  constructor
  · intro hnil
    obtain ⟨hres, hdb⟩ := Register_rdb_of_success db d req user acc rt hcu hat hrt hfault
      ⟨user.Id, user.FullName, d.GenerateCode⟩ (Or.inl ⟨hnil, rfl⟩)
    rw [hdb]
    exact ⟨hres, entries_after_both_writes _ _ _ _ _ _⟩
  · intro p u0 n0 c0 hget hp
    obtain ⟨hres, hdb⟩ := Register_rdb_of_success db d req user acc rt hcu hat hrt hfault
      ⟨u0, n0, d.GenerateCode⟩ (Or.inr ⟨p, _, hget, hp, rfl⟩)
    rw [hdb]
    exact ⟨hres, entries_after_both_writes _ _ _ _ _ _⟩

/-- Witness of C9 as amended: the sample registration on the empty database. -/
theorem C9_register_writes_session_and_confirmation_witness :
    (Service.Register [] sampleDeps ⟨"a@x.com", "Ann", "pw"⟩).result
      = Outcome.ok { AccessToken := "access-1", RefreshToken := "refresh-1",
                     User := sampleUser } ∧
    Store.ValidateRefreshToken (Service.Register [] sampleDeps ⟨"a@x.com", "Ann", "pw"⟩).rdb
      none "refresh-1" = .ok { UserID := 7, Role := "user" } ∧
    Store.ValidateConfirmCode (Service.Register [] sampleDeps ⟨"a@x.com", "Ann", "pw"⟩).rdb
      none "a@x.com" = .ok { UserID := 7, Name := "Ann", Code := 222222 } :=
  have h := (C9_register_writes_session_and_confirmation [] sampleDeps
    ⟨"a@x.com", "Ann", "pw"⟩ sampleUser "access-1" "refresh-1" rfl rfl rfl (fun _ => rfl)).1 rfl
  ⟨h.1, h.2.2.1, h.2.2.2.2⟩

/-! ## C10 -/

/-- C10 (disjoint key namespaces).  For every refresh token `t` and every email `e`, the key
of `t` is "refresh_token:" followed by `t`, the key of `e` is "confirm_token:" followed by `e`,
and the two keys differ.  So, whatever the backend does with the command, `SaveRefreshToken`
and `RemoveRefreshToken` do not change what `ValidateConfirmCode` returns for `e`, and
`SaveConfirmCode` and `RemoveConfirmCode` do not change what `ValidateRefreshToken` returns
for `t`. -/
theorem C10_key_namespaces_are_disjoint (db : Rdb) (t e : String) :
    Sprintf refreshTokenPattern t = "refresh_token:" ++ t ∧
    Sprintf confirmTokenPattern e = "confirm_token:" ++ e ∧
    "refresh_token:" ++ t ≠ "confirm_token:" ++ e ∧
    (∀ (sf gf : Option GoError) (u : I64) (r t2 : String) (ex : Int),
      Store.ValidateConfirmCode (Store.SaveRefreshToken db sf u r t2 ex).1 gf e
        = Store.ValidateConfirmCode db gf e) ∧
    (∀ (df gf : Option GoError) (t2 : String),
      Store.ValidateConfirmCode (Store.RemoveRefreshToken db df t2).1 gf e
        = Store.ValidateConfirmCode db gf e) ∧
    (∀ (gf1 sf gf : Option GoError) (u : I64) (e2 n : String) (c : I64),
      Store.ValidateRefreshToken (Store.SaveConfirmCode db gf1 sf u e2 n c).1 gf t
        = Store.ValidateRefreshToken db gf t) ∧
    (∀ (df gf : Option GoError) (e2 : String),
      Store.ValidateRefreshToken (Store.RemoveConfirmCode db df e2).1 gf t
        = Store.ValidateRefreshToken db gf t) := by
  refine ⟨Sprintf_refreshTokenPattern t, Sprintf_confirmTokenPattern e, ?_, ?_, ?_, ?_, ?_⟩
  · have h := refreshKey_ne_confirmKey t e
    rwa [Sprintf_refreshTokenPattern, Sprintf_confirmTokenPattern] at h
  · intro sf gf u r t2 ex
    apply ValidateConfirmCode_congr
    rw [SaveRefreshToken_rdb]
    exact Rdb.Get_Set_of_ne _ _ _ _ _ _ _ (Ne.symm (refreshKey_ne_confirmKey t2 e))
  · intro df gf t2
    apply ValidateConfirmCode_congr
    exact Rdb.Get_Del_of_ne _ _ _ _ _ (Ne.symm (refreshKey_ne_confirmKey t2 e))
  · intro gf1 sf gf u e2 n c
    apply ValidateRefreshToken_congr
    exact SaveConfirmCode_Get_refresh _ _ _ _ _ _ _ _ _
  · intro df gf e2
    apply ValidateRefreshToken_congr
    exact Rdb.Get_Del_of_ne _ _ _ _ _ (refreshKey_ne_confirmKey t e2)

/-! ## C11 -/

/-- C11 (the resend entry point stores the placeholder id).  Let email `e` have no live
confirmation record.  `Handler.CreateConfirmUserCode(e, fullName)`, the backend carrying out
its read and its write, leaves under the key of `e` the one document of
`{userID -1, name fullName, code c}` with `c` the generated code, whatever the identity
provider and the publisher answer: no identity enters the call.  A following
`VerifyUser(e, c)` (read carried out) finds that record, and its first call is `ConfirmUser`
with user id `-1`; it calls `ConfirmUser` with no other id. -/
theorem C11_resend_stores_placeholder_user_id (db : Rdb) (d1 d2 : Deps)
    (request : CreateConfirmUserCodeRequest)
    (hnone : db.Get none (Sprintf confirmTokenPattern request.Email) = GetResult.Nil)
    (hget : d1.rdbFault RdbCall.SaveConfirmCode_Get = none)
    (hset : d1.rdbFault RdbCall.SaveConfirmCode_Set = none)
    (hread : d2.rdbFault RdbCall.ValidateConfirmCode_Get = none) :
    Rdb.entriesAt (Handler.CreateConfirmUserCode db d1 request).rdb
        (Sprintf confirmTokenPattern request.Email)
      = [{ key := Sprintf confirmTokenPattern request.Email,
           value := marshalConfirmCode
            { UserID := I64.wrap (-1), Name := request.FullName, Code := d1.GenerateCode },
           expiration := confirmCodeTimeLive }] ∧
    Store.ValidateConfirmCode (Handler.CreateConfirmUserCode db d1 request).rdb none
        request.Email
      = .ok { UserID := I64.wrap (-1), Name := request.FullName, Code := d1.GenerateCode } ∧
    (I64.wrap (-1)).val = -1 ∧
    (Service.VerifyUser (Handler.CreateConfirmUserCode db d1 request).rdb d2 request.Email
        d1.GenerateCode).calls.head? = some (Call.ConfirmUser (I64.wrap (-1))) ∧
    (∀ u, Call.ConfirmUser u ∈
        (Service.VerifyUser (Handler.CreateConfirmUserCode db d1 request).rdb d2 request.Email
          d1.GenerateCode).calls → u.val = -1) := by
  have hdb := CreateConfirmUserCode_rdb db d1 request hnone hget hset
  have hval := ValidateConfirmCode_Set db request.Email
    ⟨I64.wrap (-1), request.FullName, d1.GenerateCode⟩ confirmCodeTimeLive
  have hcalls := VerifyUser_calls_of_match
    (db.Set none (Sprintf confirmTokenPattern request.Email)
      (marshalConfirmCode ⟨I64.wrap (-1), request.FullName, d1.GenerateCode⟩)
      confirmCodeTimeLive).1 d2 request.Email
    ⟨I64.wrap (-1), request.FullName, d1.GenerateCode⟩ (by rw [hread]; exact hval)
  rw [hdb]
  refine ⟨Rdb.entriesAt_Set _ _ _ _, hval, by decide, hcalls.1, ?_⟩
  intro u hu
  have hu2 : u = I64.wrap (-1) := hcalls.2 u hu
  rw [hu2]
  decide

/-- Witness of C11: the resend for "a@x.com" and "Ann" on the empty database with the
generated code 222222, while the identity provider knows the owner of the email as user 7. -/
theorem C11_resend_stores_placeholder_user_id_witness :
    Store.ValidateConfirmCode
        (Handler.CreateConfirmUserCode [] sampleDeps ⟨"a@x.com", "Ann"⟩).rdb none "a@x.com"
      = .ok { UserID := I64.wrap (-1), Name := "Ann", Code := 222222 } ∧
    (I64.wrap (-1)).val = -1 ∧
    (Service.VerifyUser (Handler.CreateConfirmUserCode [] sampleDeps ⟨"a@x.com", "Ann"⟩).rdb
        sampleDeps "a@x.com" 222222).calls.head? = some (Call.ConfirmUser (I64.wrap (-1))) :=
  have h := C11_resend_stores_placeholder_user_id [] sampleDeps sampleDeps ⟨"a@x.com", "Ann"⟩
    rfl rfl rfl rfl
  ⟨h.2.1, h.2.2.1, h.2.2.2.1⟩

end AuthService
